import Mathlib

/-!
Verification of the household-meal-planner domain engine against its
specification.  The Python services under `src/backend/src/services` are
shallowly embedded as pure Lean functions over explicit database states:

* SQLAlchemy rows become Lean structures; tables become lists kept in
  insertion order (which is also timestamp order for append-only history).
* `Decimal` / `Numeric` quantities become `ℚ` (the design notes prescribe
  exact decimal arithmetic, and every arithmetic operation the services
  perform - addition, subtraction, max, multiplication, division by a
  positive integer - is exact on decimals of the modelled sizes).
* Dates and datetimes become integer day / instant numbers supplied by the
  caller (`today`, `now`).
* `uuid4` primary keys become `Nat` identifiers; freshness of generated
  keys is modelled by a `nextId` counter in the database state.
* a Python `None`-able column becomes an `Option`; Python truthiness tests
  on such values (`if ing.quantity:`, `x or y`) are translated explicitly,
  with `0`, `None` and `""` falsy.
* `query.filter(...).first()` becomes `List.find?`, mutation of the row it
  returned becomes replacement of the first matching list element, and
  `ILIKE` matching of plain names becomes case-insensitive equality.
-/

namespace MealPlanner

/-- Replace the first element satisfying `p` by its image under `f`
(mirrors mutating the single row returned by `query.filter(p).first()`). -/
def replaceFirstBy (p : α → Bool) (f : α → α) : List α → List α
  | [] => []
  | x :: xs => if p x then f x :: xs else x :: replaceFirstBy p f xs

/-- Python truthiness of an optional string (`None` and `""` are falsy). -/
def strTruthy : Option String → Bool
  | none => false
  | some s => s ≠ ""

/-- Python `a or d` for an optional positive integer (`None` and `0` falsy). -/
def pyOr (a : Option Nat) (d : Nat) : Nat :=
  match a with
  | some n => if n = 0 then d else n
  | none => d

/-- ASCII lower-casing, character by character (the `.lower()` of the
source applied to ingredient and item names). -/
def lowerStr (s : String) : String := ⟨s.data.map Char.toLower⟩

/-- Strip leading and trailing whitespace (the `.strip()` of the source). -/
def trimStr (s : String) : String :=
  ⟨((s.data.dropWhile Char.isWhitespace).reverse.dropWhile
    Char.isWhitespace).reverse⟩

/-- Code-point lexicographic order on character lists (the Python string
order used by the final sorts). -/
def charListLt : List Char → List Char → Bool
  | [], [] => false
  | [], _ :: _ => true
  | _ :: _, [] => false
  | a :: as, b :: bs =>
    if a < b then true else if b < a then false else charListLt as bs

/-- Strict string order by code points. -/
def strLtB (a b : String) : Bool := charListLt a.data b.data

/-- Case-insensitive name equality: `column.ilike(name)` on a plain name. -/
def nameMatches (a b : String) : Bool := lowerStr a == lowerStr b

/-- Insert into a sorted list, before the first element the new one is
`le`-below-or-tied with (stable insertion). -/
def insertSorted (le : α → α → Bool) (x : α) : List α → List α
  | [] => [x]
  | y :: ys => if le x y then x :: y :: ys else y :: insertSorted le x ys

/-- Stable insertion sort with a boolean order (the Python stable sorts
and the SQL `order_by` of the services). -/
def sortLe (le : α → α → Bool) (l : List α) : List α :=
  l.foldr (insertSorted le) []

/-! ## Data model: app settings (`models/app_settings.py`) -/

/-- Settings singleton row.  The table carries CHECK constraints
`favorites_min_raters > 0`, `0 <= favorites_threshold <= 1`,
`expiration_warning_days >= 0`; quantities that the constraints force to be
non-negative integers are modelled as `Nat`. -/
structure AppSettings where
  favorites_threshold : ℚ
  favorites_min_raters : Nat
  rotation_period_days : Nat
  low_stock_threshold_percent : ℚ
  expiration_warning_days : Nat
  deriving Repr, DecidableEq

/-! ## Data model: inventory (`models/inventory.py`) -/

/-- One `inventory` row. -/
structure InventoryItem where
  id : Nat
  item_name : String
  quantity : ℚ
  unit : Option String := none
  category : Option String := none
  location : Option String := none
  expiration_date : Option Int := none
  minimum_stock : ℚ := 0
  notes : Option String := none
  deriving Repr, DecidableEq

/-- One `inventory_history` row; `change_type` keeps the source string
values (`"purchased"`, `"adjusted"`, `"auto_deducted"`, ...). -/
structure InventoryHistory where
  inventory_id : Nat
  change_type : String
  quantity_before : ℚ
  quantity_after : ℚ
  reason : Option String := none
  changed_by : Option Nat := none
  deriving Repr, DecidableEq

/-- The inventory tables: items, append-only history in timestamp order,
and the key generator standing in for `uuid4` primary keys. -/
structure InvDb where
  items : List InventoryItem := []
  history : List InventoryHistory := []
  nextId : Nat := 0
  deriving Repr, DecidableEq

/-- Payload of `InventoryItemCreate` (`schemas/inventory.py`). -/
structure InventoryItemCreate where
  item_name : String
  quantity : ℚ
  unit : Option String := none
  category : Option String := none
  location : Option String := none
  expiration_date : Option Int := none
  minimum_stock : Option ℚ := some 0
  notes : Option String := none
  deriving Repr, DecidableEq

/-- Payload of `InventoryItemUpdate`: `none` models an unset field
(`model_dump(exclude_unset=True)` skips it). -/
structure InventoryItemUpdate where
  item_name : Option String := none
  quantity : Option ℚ := none
  unit : Option String := none
  category : Option String := none
  location : Option String := none
  expiration_date : Option Int := none
  minimum_stock : Option ℚ := none
  notes : Option String := none
  deriving Repr, DecidableEq

/-- `InventoryService.create_item`: insert the item and journal one
`purchased` row from `quantity_before=0`. -/
def create_item (db : InvDb) (item_data : InventoryItemCreate) (user_id : Nat) :
    InvDb × InventoryItem :=
  let item : InventoryItem :=
    { id := db.nextId
      item_name := item_data.item_name
      quantity := item_data.quantity
      unit := item_data.unit
      category := item_data.category
      location := item_data.location
      expiration_date := item_data.expiration_date
      minimum_stock := item_data.minimum_stock.getD 0
      notes := item_data.notes }
  let row : InventoryHistory :=
    { inventory_id := item.id
      change_type := "purchased"
      quantity_before := 0
      quantity_after := item.quantity
      reason := some "Initial inventory"
      changed_by := some user_id }
  ({ items := db.items ++ [item]
     history := db.history ++ [row]
     nextId := db.nextId + 1 }, item)

/-- Field-by-field `setattr` loop of `InventoryService.update_item`. -/
def applyItemUpdate (u : InventoryItemUpdate) (i : InventoryItem) : InventoryItem :=
  { i with
    item_name := u.item_name.getD i.item_name
    quantity := u.quantity.getD i.quantity
    unit := match u.unit with | some x => some x | none => i.unit
    category := match u.category with | some x => some x | none => i.category
    location := match u.location with | some x => some x | none => i.location
    expiration_date := match u.expiration_date with | some x => some x | none => i.expiration_date
    minimum_stock := u.minimum_stock.getD i.minimum_stock
    notes := match u.notes with | some x => some x | none => i.notes }

/-- `InventoryService.update_item`: update the row, journalling an
`adjusted` history row only when a supplied quantity actually changed. -/
def update_item (db : InvDb) (item_id : Nat) (item_data : InventoryItemUpdate)
    (user_id : Nat) : InvDb × Option InventoryItem :=
  match db.items.find? (fun i => i.id == item_id) with
  | none => (db, none)
  | some item =>
    let old_quantity := item.quantity
    let item' := applyItemUpdate item_data item
    let rows : List InventoryHistory :=
      match item_data.quantity with
      | some new_quantity =>
        if new_quantity ≠ old_quantity then
          [{ inventory_id := item.id
             change_type := "adjusted"
             quantity_before := old_quantity
             quantity_after := new_quantity
             reason := some "Manual adjustment"
             changed_by := some user_id }]
        else []
      | none => []
    ({ db with
       items := replaceFirstBy (fun i => i.id == item_id) (fun _ => item') db.items
       history := db.history ++ rows }, some item')

/-- `InventoryService.deduct_quantity`: clamp to the zero floor and journal
one `auto_deducted` row; `false` only when the item does not exist. -/
def deduct_quantity (db : InvDb) (item_id : Nat) (quantity : ℚ) (reason : String)
    (user_id : Option Nat) : InvDb × Bool :=
  match db.items.find? (fun i => i.id == item_id) with
  | none => (db, false)
  | some item =>
    let old_quantity := item.quantity
    let new_quantity := max 0 (old_quantity - quantity)
    let row : InventoryHistory :=
      { inventory_id := item.id
        change_type := "auto_deducted"
        quantity_before := old_quantity
        quantity_after := new_quantity
        reason := some reason
        changed_by := user_id }
    ({ db with
       items := replaceFirstBy (fun i => i.id == item_id)
         (fun i => { i with quantity := new_quantity }) db.items
       history := db.history ++ [row] }, true)

/-- `InventoryService.get_expiring_items`: the warning window comes from the
settings row whenever one exists, otherwise from the `days` argument; items
with a non-null expiration date at or before the cutoff are returned with
their days-until-expiry, ordered by expiration date. -/
def get_expiring_items (db : InvDb) (settings : Option AppSettings) (today : Int)
    (days : Nat := 7) : List (InventoryItem × Int) :=
  let warning_days : Nat :=
    match settings with
    | some s => s.expiration_warning_days
    | none => days
  let cutoff_date : Int := today + (warning_days : Int)
  let keep : InventoryItem → Bool := fun i =>
    match i.expiration_date with
    | some e => decide (e ≤ cutoff_date)
    | none => false
  let expKey : InventoryItem → Int := fun i => (i.expiration_date.getD 0)
  let sorted := sortLe (fun a b => decide (expKey a ≤ expKey b)) (db.items.filter keep)
  sorted.map (fun i =>
    match i.expiration_date with
    | some e => (i, e - today)
    | none => (i, 0))

/-! ## Data model: ratings (`models/rating.py`, service `rating_service.py`) -/

/-- One `ratings` row: boolean thumbs up/down per (recipe, user). -/
structure Rating where
  id : Nat
  recipe_id : Nat
  user_id : Nat
  rating : Bool
  feedback : Option String := none
  modifications : Option String := none
  deriving Repr, DecidableEq

/-- Payload of `RatingCreate` (`schemas/rating.py`). -/
structure RatingCreate where
  rating : Bool
  feedback : Option String := none
  modifications : Option String := none
  deriving Repr, DecidableEq

/-- Result of `RatingService.get_rating_summary`. -/
structure RatingSummary where
  recipe_id : Nat
  thumbs_up_count : Nat
  thumbs_down_count : Nat
  total_ratings : Nat
  is_favorite : Bool
  deriving Repr, DecidableEq

/-- Threshold actually used by the service: the settings row when present,
else the hard-coded default `0.75`. -/
def thresholdOf (settings : Option AppSettings) : ℚ :=
  match settings with
  | some s => s.favorites_threshold
  | none => 3 / 4

/-- Minimum rater count actually used: settings row when present, else 3. -/
def minRatersOf (settings : Option AppSettings) : Nat :=
  match settings with
  | some s => s.favorites_min_raters
  | none => 3

/-- `RatingService.get_rating_summary`: count thumbs, and compute favorite
status guarded by the minimum-rater count, with an explicit zero-total
guard before the division. -/
def get_rating_summary (ratings : List Rating) (settings : Option AppSettings)
    (recipe_id : Nat) : RatingSummary :=
  let rs := ratings.filter (fun r => r.recipe_id == recipe_id)
  let thumbs_up := (rs.filter (fun r => r.rating)).length
  let thumbs_down := (rs.filter (fun r => !r.rating)).length
  let total := rs.length
  let threshold := thresholdOf settings
  let min_raters := minRatersOf settings
  let is_favorite :=
    if total ≥ min_raters then
      let percentage : ℚ := if total > 0 then (thumbs_up : ℚ) / (total : ℚ) else 0
      decide (percentage ≥ threshold)
    else false
  { recipe_id := recipe_id
    thumbs_up_count := thumbs_up
    thumbs_down_count := thumbs_down
    total_ratings := total
    is_favorite := is_favorite }

/-- `RatingService.update_rating`: the query filters on the rating id AND
the acting user id, so a rating owned by someone else is simply not found. -/
def update_rating (db : List Rating) (rating_id user_id : Nat)
    (rating_data : RatingCreate) : List Rating × Option Rating :=
  match db.find? (fun r => r.id == rating_id && r.user_id == user_id) with
  | none => (db, none)
  | some r =>
    let r' := { r with
      rating := rating_data.rating
      feedback := rating_data.feedback
      modifications := rating_data.modifications }
    (replaceFirstBy (fun x => x.id == rating_id && x.user_id == user_id)
      (fun _ => r') db, some r')

/-- `RatingService.delete_rating`: same owner-filtered lookup, then delete. -/
def delete_rating (db : List Rating) (rating_id user_id : Nat) :
    List Rating × Bool :=
  match db.find? (fun r => r.id == rating_id && r.user_id == user_id) with
  | none => (db, false)
  | some _ =>
    (db.eraseP (fun r => r.id == rating_id && r.user_id == user_id), true)

/-! ## Data model: recipes (`models/recipe.py`, service `recipe_service.py`)

A `RecipeVersion` owns its `Ingredient` rows and a `Recipe` owns its
versions and tags, so the surrogate-key joins of the source become nested
lists here.  Version rows are kept in creation order. -/

/-- One `ingredients` row (minus its surrogate key). -/
structure IngredientRow where
  name : String
  quantity : Option ℚ := none
  unit : Option String := none
  category : Option String := none
  is_optional : Bool := false
  display_order : Nat := 0
  deriving Repr, DecidableEq

/-- One `recipe_versions` row with its owned ingredients. -/
structure RecipeVersionRow where
  version_number : Nat
  prep_time_minutes : Option Nat := none
  cook_time_minutes : Option Nat := none
  servings : Option Nat := none
  difficulty : Option String := none
  instructions : String
  change_description : Option String := none
  modified_by : Nat
  ingredients : List IngredientRow := []
  deriving Repr, DecidableEq

/-- One `recipes` row with its owned versions and tags. -/
structure RecipeRow where
  id : Nat
  title : String
  description : Option String := none
  source_url : Option String := none
  source_type : String := "manual"
  current_version : Nat := 1
  is_deleted : Bool := false
  last_cooked_date : Option Int := none
  times_cooked : Nat := 0
  versions : List RecipeVersionRow := []
  tags : List String := []
  deriving Repr, DecidableEq

/-- Payload of `IngredientInput` (`schemas/recipe.py`). -/
structure IngredientInput where
  name : String
  quantity : Option ℚ := none
  unit : Option String := none
  category : Option String := none
  is_optional : Option Bool := some false
  deriving Repr, DecidableEq

/-- Payload of `RecipeUpdate` (`schemas/recipe.py`). -/
structure RecipeUpdate where
  title : String
  description : Option String := none
  prep_time_minutes : Option Nat := none
  cook_time_minutes : Option Nat := none
  servings : Option Nat := none
  difficulty : Option String := none
  tags : List String := []
  source_url : Option String := none
  ingredients : List IngredientInput
  instructions : String
  change_description : Option String := none
  deriving Repr, DecidableEq

/-- The `recipes` query both update and revert start from: by id, not
soft-deleted. -/
def findLiveRecipe (recipes : List RecipeRow) (recipe_id : Nat) :
    Option RecipeRow :=
  recipes.find? (fun r => r.id == recipe_id && !r.is_deleted)

/-- The `recipe_versions` lookup by (recipe, version_number). -/
def findVersion (r : RecipeRow) (version_number : Nat) :
    Option RecipeVersionRow :=
  r.versions.find? (fun v => v.version_number == version_number)

/-- Ingredient rows created from posted ingredient data with
`display_order = idx` (`enumerate` loop shared by create/update). -/
def ingredientRowsOf (ings : List IngredientInput) : List IngredientRow :=
  ings.enum.map (fun p =>
    { name := p.2.name
      quantity := p.2.quantity
      unit := p.2.unit
      category := p.2.category
      is_optional := p.2.is_optional.getD false
      display_order := p.1 })

/-- `RecipeService.update_recipe`: append version `current+1` as a full new
snapshot, advance `current_version`, refresh metadata and tags; `none` when
the recipe is missing or soft-deleted. -/
def update_recipe (recipes : List RecipeRow) (recipe_id : Nat)
    (recipe_data : RecipeUpdate) (user_id : Nat) :
    List RecipeRow × Option RecipeRow :=
  match findLiveRecipe recipes recipe_id with
  | none => (recipes, none)
  | some recipe =>
    let new_version_number := recipe.current_version + 1
    let version : RecipeVersionRow :=
      { version_number := new_version_number
        prep_time_minutes := recipe_data.prep_time_minutes
        cook_time_minutes := recipe_data.cook_time_minutes
        servings := recipe_data.servings
        difficulty := recipe_data.difficulty
        instructions := recipe_data.instructions
        change_description := recipe_data.change_description
        modified_by := user_id
        ingredients := ingredientRowsOf recipe_data.ingredients }
    let recipe' := { recipe with
      title := recipe_data.title
      description := recipe_data.description
      current_version := new_version_number
      versions := recipe.versions ++ [version]
      tags := recipe_data.tags.map lowerStr }
    (replaceFirstBy (fun r => r.id == recipe_id && !r.is_deleted)
      (fun _ => recipe') recipes, some recipe')

/-- Insertion sort by `display_order` (the `order_by` of the revert query). -/
def sortByDisplayOrder (l : List IngredientRow) : List IngredientRow :=
  sortLe (fun a b => decide (a.display_order ≤ b.display_order)) l

/-- `RecipeService.revert_recipe`: copy the target version into a brand-new
version at `current+1` and advance `current_version`; `none` when the
recipe is missing/soft-deleted or the target version is absent. -/
def revert_recipe (recipes : List RecipeRow) (recipe_id version_number user_id : Nat) :
    List RecipeRow × Option RecipeRow :=
  match findLiveRecipe recipes recipe_id with
  | none => (recipes, none)
  | some recipe =>
    match findVersion recipe version_number with
    | none => (recipes, none)
    | some target_version =>
      let target_ingredients := sortByDisplayOrder target_version.ingredients
      let new_version_number := recipe.current_version + 1
      let new_version : RecipeVersionRow :=
        { version_number := new_version_number
          prep_time_minutes := target_version.prep_time_minutes
          cook_time_minutes := target_version.cook_time_minutes
          servings := target_version.servings
          difficulty := target_version.difficulty
          instructions := target_version.instructions
          change_description := some ("Reverted to version " ++ toString version_number)
          modified_by := user_id
          ingredients := target_ingredients.map (fun ing =>
            { name := ing.name
              quantity := ing.quantity
              unit := ing.unit
              category := ing.category
              is_optional := ing.is_optional
              display_order := ing.display_order }) }
      let recipe' := { recipe with
        current_version := new_version_number
        versions := recipe.versions ++ [new_version] }
      (replaceFirstBy (fun r => r.id == recipe_id && !r.is_deleted)
        (fun _ => recipe') recipes, some recipe')

/-! ## Data model: menu plans (`models/menu_plan.py`) and the cooking
event processor (`menu_plan_service.py`). -/

/-- One `menu_plans` row. -/
structure MenuPlanRow where
  id : Nat
  week_start_date : Int
  name : Option String := none
  is_active : Bool := true
  created_by : Nat
  deriving Repr, DecidableEq

/-- One `planned_meals` row. -/
structure PlannedMeal where
  id : Nat
  menu_plan_id : Nat
  recipe_id : Nat
  meal_date : Int
  meal_type : String
  servings_planned : Option Nat := none
  notes : Option String := none
  cooked : Bool := false
  cooked_date : Option Int := none
  cooked_by : Option Nat := none
  deriving Repr, DecidableEq

/-- The whole transactional store the cooking and shopping services see. -/
structure Db where
  plans : List MenuPlanRow := []
  meals : List PlannedMeal := []
  recipes : List RecipeRow := []
  inv : InvDb := {}
  deriving Repr, DecidableEq

/-- One entry of the `inventory_changes` list returned by
`mark_meal_cooked`. -/
structure InventoryChange where
  item_name : String
  quantity_deducted : ℚ
  deriving Repr, DecidableEq

/-- The meal lookup opening `mark_meal_cooked`: by meal id AND plan id. -/
def findMeal (db : Db) (plan_id meal_id : Nat) : Option PlannedMeal :=
  db.meals.find? (fun m => m.id == meal_id && m.menu_plan_id == plan_id)

/-- The servings scaling ratio
`(meal.servings_planned or version.servings or 1) / (version.servings or 1)`;
Python `or` takes the first truthy (non-`None`, non-zero) operand. -/
def servingsRatio (meal : PlannedMeal) (version : RecipeVersionRow) : ℚ :=
  ((pyOr meal.servings_planned (pyOr version.servings 1) : ℚ)) /
    ((pyOr version.servings 1 : ℚ))

/-- The ingredient lookup of the cooking loop: first inventory item whose
name matches the ingredient case-insensitively. -/
def findInvByName (items : List InventoryItem) (name : String) :
    Option InventoryItem :=
  items.find? (fun it => nameMatches it.item_name name)

/-- Body of the per-ingredient deduction loop of `mark_meal_cooked`:
optional ingredients are skipped, then the inventory item is resolved by
name and the deduction runs only under `if item and ing.quantity:`
(a `None` or zero quantity is falsy). -/
def deductStep (title : String) (user_id : Nat) (ratio : ℚ)
    (acc : InvDb × List InventoryChange) (ing : IngredientRow) :
    InvDb × List InventoryChange :=
  if ing.is_optional then acc
  else
    match findInvByName acc.1.items ing.name, ing.quantity with
    | some item, some q =>
      if q == 0 then acc
      else
        let quantity_to_deduct := q * ratio
        let res := deduct_quantity acc.1 item.id quantity_to_deduct
          ("Used for " ++ title) (some user_id)
        if res.2 then
          (res.1, acc.2 ++ [{ item_name := item.item_name
                              quantity_deducted := quantity_to_deduct }])
        else (res.1, acc.2)
    | _, _ => acc

/-- The whole deduction loop over the current version ingredients. -/
def deductIngredients (inv : InvDb) (version : RecipeVersionRow)
    (meal : PlannedMeal) (title : String) (user_id : Nat) :
    InvDb × List InventoryChange :=
  version.ingredients.foldl (deductStep title user_id (servingsRatio meal version))
    (inv, [])

/-- Result of `mark_meal_cooked`.  `notFound` is the early `(None, [])`
return (nothing was written).  `crashNoneRecipe` is the uncaught
`AttributeError` raised by `recipe.current_version` when the referenced
recipe row does not exist; it carries the uncommitted session state, in
which the meal has already been marked cooked. -/
inductive MarkResult
  | notFound
  | crashNoneRecipe (partialDb : Db)
  | ok (db : Db) (meal : PlannedMeal) (changes : List InventoryChange)
  deriving Repr, DecidableEq

/-- `MenuPlanService.mark_meal_cooked`: mark the meal cooked, bump the
recipe statistics, and auto-deduct the non-optional current-version
ingredients through the inventory ledger. -/
def mark_meal_cooked (db : Db) (now today : Int) (plan_id meal_id user_id : Nat) :
    MarkResult :=
  match findMeal db plan_id meal_id with
  | none => .notFound
  | some meal =>
    let meal' := { meal with
      cooked := true
      cooked_date := some now
      cooked_by := some user_id }
    let db1 := { db with
      meals := replaceFirstBy (fun m => m.id == meal_id && m.menu_plan_id == plan_id)
        (fun _ => meal') db.meals }
    match db1.recipes.find? (fun r => r.id == meal.recipe_id) with
    | none => .crashNoneRecipe db1
    | some recipe =>
      let recipe' := { recipe with
        last_cooked_date := some today
        times_cooked := recipe.times_cooked + 1 }
      let db2 := { db1 with
        recipes := replaceFirstBy (fun r => r.id == meal.recipe_id)
          (fun _ => recipe') db1.recipes }
      match findVersion recipe recipe.current_version with
      | none => .ok db2 meal' []
      | some version =>
        let res := deductIngredients db2.inv version meal recipe.title user_id
        .ok { db2 with inv := res.1 } meal' res.2

/-! ## Shopping list aggregator (`shopping_list_service.py`) -/

/-- The running aggregate per normalized ingredient name. -/
structure AggEntry where
  quantity : ℚ := 0
  unit : Option String := none
  category : String := "other"
  recipes : List String := []
  deriving Repr, DecidableEq

/-- The `defaultdict` keyed by normalized name, in insertion order. -/
abbrev Agg := List (String × AggEntry)

/-- Access-or-create update of one `defaultdict` entry. -/
def aggUpdate (key : String) (f : AggEntry → AggEntry) : Agg → Agg
  | [] => [(key, f {})]
  | (k, v) :: rest =>
    if k == key then (k, f v) :: rest else (k, v) :: aggUpdate key f rest

/-- Per-ingredient mutation of its aggregate entry: add the scaled
quantity when truthy, remember the first truthy unit, overwrite the
category with any truthy one, and append the recipe title once. -/
def ingUpdate (recipeTitle : String) (ratio : ℚ) (ing : IngredientRow)
    (e : AggEntry) : AggEntry :=
  let e :=
    match ing.quantity with
    | some q => if q == 0 then e else { e with quantity := e.quantity + q * ratio }
    | none => e
  let e :=
    if !(strTruthy e.unit) && strTruthy ing.unit then { e with unit := ing.unit }
    else e
  let e :=
    match ing.category with
    | some c => if c == "" then e else { e with category := c }
    | none => e
  if e.recipes.contains recipeTitle then e
  else { e with recipes := e.recipes ++ [recipeTitle] }

/-- The meal loop of `generate_shopping_list`: resolve each meal recipe
and its current version, keep only non-optional ingredients, and fold them
into the aggregate keyed by `ing.name.lower().strip()`. -/
def aggregateMeals (recipes : List RecipeRow) (meals : List PlannedMeal) : Agg :=
  meals.foldl (fun agg meal =>
    match recipes.find? (fun r => r.id == meal.recipe_id) with
    | none => agg
    | some recipe =>
      match findVersion recipe recipe.current_version with
      | none => agg
      | some version =>
        let ratio := servingsRatio meal version
        (version.ingredients.filter (fun i => !i.is_optional)).foldl
          (fun agg ing =>
            aggUpdate (trimStr (lowerStr ing.name)) (ingUpdate recipe.title ratio ing) agg)
          agg) []

/-- Character loop of `titleCase`, tracking whether the previous character
was alphabetic. -/
def titleCaseGo : List Char → Bool → List Char
  | [], _ => []
  | c :: cs, prevAlpha =>
    (if prevAlpha then c.toLower else c.toUpper) :: titleCaseGo cs c.isAlpha

/-- Python `str.title()`: upper-case a letter starting an alphabetic run,
lower-case the rest of the run. -/
def titleCase (s : String) : String :=
  ⟨titleCaseGo s.data false⟩

/-- One generated shopping list line (the random `uuid4` line id is not
modelled). -/
structure ShoppingListItem where
  name : String
  quantity : ℚ
  unit : String
  category : String
  needed_for_recipes : List String
  in_stock : Bool
  checked : Bool
  deriving Repr, DecidableEq

/-- The shopping line emitted for one aggregate entry (title-cased name,
`unit or ""`, unchecked, `in_stock` false since fully met needs are
skipped). -/
def mkShoppingItem (name : String) (qty : ℚ) (data : AggEntry) :
    ShoppingListItem :=
  { name := titleCase name
    quantity := qty
    unit := if strTruthy data.unit then data.unit.getD "" else ""
    category := data.category
    needed_for_recipes := data.recipes
    in_stock := false
    checked := false }

/-- Reconciliation of one aggregate entry against inventory: fully stocked
entries are skipped, partially stocked ones are emitted as the deficit,
unmatched ones in full. -/
def reconcileEntry (invItems : List InventoryItem) (kv : String × AggEntry) :
    Option ShoppingListItem :=
  let name := kv.1
  let data := kv.2
  let quantity_needed := data.quantity
  match findInvByName invItems name with
  | some item =>
    if item.quantity ≥ quantity_needed then none
    else
      let deficit := quantity_needed - item.quantity
      if deficit ≤ 0 then none else some (mkShoppingItem name deficit data)
  | none => some (mkShoppingItem name quantity_needed data)

/-- Boolean string order used for the final sort (code-point comparison,
as in the Python string sort). -/
def strLe (a b : String) : Bool := strLtB a b || a == b

/-- Sort key order: `(category, name)` when grouped, `name` otherwise. -/
def shoppingLe (grouped : Bool) (a b : ShoppingListItem) : Bool :=
  if grouped then
    strLtB a.category b.category || (a.category == b.category && strLe a.name b.name)
  else strLe a.name b.name

/-- The generated shopping list (header fields other than the items are
not modelled). -/
structure ShoppingListResponse where
  menu_plan_id : Nat
  items : List ShoppingListItem
  deriving Repr, DecidableEq

/-- `ShoppingListService.generate_shopping_list`: `ValueError` when the
plan is missing; otherwise aggregate the uncooked meals, reconcile against
inventory, and sort. -/
def generate_shopping_list (db : Db) (plan_id : Nat) (grouped : Bool := true) :
    Except String ShoppingListResponse :=
  match db.plans.find? (fun p => p.id == plan_id) with
  | none => .error "Menu plan not found"
  | some _ =>
    let meals := db.meals.filter (fun m => m.menu_plan_id == plan_id && !m.cooked)
    let aggregated := aggregateMeals db.recipes meals
    let shopping_items := aggregated.foldl (fun acc kv =>
      match reconcileEntry db.inv.items kv with
      | some it => acc ++ [it]
      | none => acc) []
    .ok { menu_plan_id := plan_id
          items := sortLe (shoppingLe grouped) shopping_items }

/-! ## Derived notions used by the statements -/

/-- The identity-relevant projection of an inventory item: deductions
change quantities but never keys or names. -/
def itemKey (i : InventoryItem) : Nat × String := (i.id, i.item_name)

/-- Quantity of an item by id, `none` when the item does not exist. -/
def getQty (db : InvDb) (id : Nat) : Option ℚ :=
  (db.items.find? (fun i => i.id == id)).map (fun i => i.quantity)

/-- History rows of one item, in timestamp (= append) order. -/
def historyFor (db : InvDb) (id : Nat) : List InventoryHistory :=
  db.history.filter (fun r => r.inventory_id == id)

/-- The ledger chain property: each row starts where the previous one
ended, beginning from `q`. -/
def chainFrom (q : ℚ) : List InventoryHistory → Prop
  | [] => True
  | r :: rs => r.quantity_before = q ∧ chainFrom r.quantity_after rs

/-- Replaying history rows from `q`: the quantity after the last row. -/
def replayFrom (q : ℚ) : List InventoryHistory → ℚ
  | [] => q
  | r :: rs => replayFrom r.quantity_after rs

/-- The Inventory Ledger operations of the claim: create, quantity
update/adjust, deduct. -/
inductive InvOp where
  | create (data : InventoryItemCreate) (user : Nat)
  | update (item_id : Nat) (data : InventoryItemUpdate) (user : Nat)
  | deduct (item_id : Nat) (amount : ℚ) (reason : String) (user : Option Nat)

/-- State transformer of one ledger operation. -/
def applyOp (db : InvDb) : InvOp → InvDb
  | .create data user => (create_item db data user).1
  | .update item_id data user => (update_item db item_id data user).1
  | .deduct item_id amount reason user => (deduct_quantity db item_id amount reason user).1

/-- Reachability invariant of the inventory store: generated keys are
fresh and unique, and every item is corroborated by its history chain. -/
def LedgerInv (db : InvDb) : Prop :=
  (∀ i ∈ db.items, i.id < db.nextId) ∧
  (∀ r ∈ db.history, r.inventory_id < db.nextId) ∧
  (db.items.map (fun i => i.id)).Nodup ∧
  (∀ i ∈ db.items, chainFrom 0 (historyFor db i.id) ∧
    replayFrom 0 (historyFor db i.id) = i.quantity)

/-- One step pairs every observable quantity change with exactly one new
history row bracketing it. -/
def StepPairing (db db' : InvDb) : Prop :=
  ∀ id, getQty db' id ≠ getQty db id →
    ∃ row, historyFor db' id = historyFor db id ++ [row] ∧
      row.quantity_before = (getQty db id).getD 0 ∧
      getQty db' id = some row.quantity_after

/-- The deduction list `mark_meal_cooked` must return, read off the
initial inventory: one entry per non-optional ingredient that has a truthy
quantity and a case-insensitive inventory name match. -/
def expectedChanges (items0 : List InventoryItem) (ratio : ℚ)
    (ings : List IngredientRow) : List InventoryChange :=
  ings.filterMap (fun ing =>
    if ing.is_optional then none
    else
      match findInvByName items0 ing.name, ing.quantity with
      | some item, some q =>
        if q == 0 then none
        else some { item_name := item.item_name, quantity_deducted := q * ratio }
      | _, _ => none)

/-! ## General lemmas about the list primitives -/

theorem find?_decomp {p : α → Bool} {l : List α} {a : α} (h : l.find? p = some a) :
    ∃ l₁ l₂, l = l₁ ++ a :: l₂ ∧ (∀ b ∈ l₁, p b = false) ∧
      ∀ f, replaceFirstBy p f l = l₁ ++ f a :: l₂ := by
  induction l with
  | nil => simp at h
  | cons x xs ih =>
    cases hp : p x with
    | true =>
      have hxa : x = a := by simpa [List.find?_cons, hp] using h
      subst hxa
      exact ⟨[], xs, rfl, by simp, fun f => by simp [replaceFirstBy, hp]⟩
    | false =>
      have h' : xs.find? p = some a := by simpa [List.find?_cons, hp] using h
      obtain ⟨l₁, l₂, hl, hfalse, hrep⟩ := ih h'
      refine ⟨x :: l₁, l₂, by simp [hl], ?_, fun f => by simp [replaceFirstBy, hp, hrep f]⟩
      intro b hb
      rcases List.mem_cons.mp hb with hb | hb
      · rw [hb]; exact hp
      · exact hfalse b hb

theorem replaceFirstBy_map {p : α → Bool} {f : α → α} (g : α → β)
    (hf : ∀ x, g (f x) = g x) : ∀ l : List α,
    (replaceFirstBy p f l).map g = l.map g := by
  intro l
  induction l with
  | nil => rfl
  | cons x xs ih =>
    by_cases hp : p x
    · simp [replaceFirstBy, hp, hf x]
    · simp [replaceFirstBy, hp, ih]

theorem find?_append_some {p : α → Bool} {l₁ : List α} {a : α} (l₂ : List α)
    (h : l₁.find? p = some a) : (l₁ ++ l₂).find? p = some a := by
  rw [List.find?_append, h]
  rfl

theorem find?_append_none {p : α → Bool} {l₁ : List α} (l₂ : List α)
    (h : l₁.find? p = none) : (l₁ ++ l₂).find? p = l₂.find? p := by
  rw [List.find?_append, h]
  rfl

theorem find?_replaceFirstBy_self {p : α → Bool} {l : List α} {a : α} (f : α → α)
    (h : l.find? p = some a) (hfa : p (f a) = true) :
    (replaceFirstBy p f l).find? p = some (f a) := by
  obtain ⟨l₁, l₂, _, hfalse, hrep⟩ := find?_decomp h
  rw [hrep f]
  rw [find?_append_none]
  · simp [List.find?_cons, hfa]
  · exact List.find?_eq_none.2 (by intro b hb; simp [hfalse b hb])

theorem find?_replaceFirstBy_other {p q : α → Bool} {l : List α} {a : α} (f : α → α)
    (h : l.find? p = some a) (hqa : q a = false) (hqfa : q (f a) = false) :
    (replaceFirstBy p f l).find? q = l.find? q := by
  obtain ⟨l₁, l₂, hl, _, hrep⟩ := find?_decomp h
  rw [hrep f, hl]
  rw [List.find?_append, List.find?_append]
  simp [List.find?_cons, hqa, hqfa]

theorem insertSorted_perm (le : α → α → Bool) (x : α) :
    ∀ l : List α, (insertSorted le x l).Perm (x :: l) := by
  intro l
  induction l with
  | nil => simp [insertSorted]
  | cons y ys ih =>
    by_cases hle : le x y
    · simp [insertSorted, hle]
    · simp only [insertSorted, if_neg hle]
      exact (List.Perm.cons y ih).trans (List.Perm.swap x y ys)

theorem sortLe_perm (le : α → α → Bool) : ∀ l : List α, (sortLe le l).Perm l := by
  intro l
  induction l with
  | nil => simp [sortLe]
  | cons x xs ih =>
    have : sortLe le (x :: xs) = insertSorted le x (sortLe le xs) := rfl
    rw [this]
    exact (insertSorted_perm le x (sortLe le xs)).trans (List.Perm.cons x ih)

theorem mem_sortLe {le : α → α → Bool} {l : List α} {x : α} :
    x ∈ sortLe le l ↔ x ∈ l :=
  (sortLe_perm le l).mem_iff

/-! ## Claim C3: deduct clamps to the zero floor -/

/-- C3: for every item id and amount, `deduct_quantity` returns false and
changes no state when no item with that id exists; when the item exists it
always succeeds, sets the quantity to `max 0 (old - amount)` (never
negative, zero whenever the amount exceeds the stock), writes exactly one
`auto_deducted` history row bracketing the change, and touches no other
item. -/
theorem claim_C3_deduct_zero_floor (db : InvDb) (item_id : Nat) (amount : ℚ)
    (reason : String) (user : Option Nat) :
    (db.items.find? (fun i => i.id == item_id) = none →
      deduct_quantity db item_id amount reason user = (db, false)) ∧
    (∀ item, db.items.find? (fun i => i.id == item_id) = some item →
      (deduct_quantity db item_id amount reason user).2 = true ∧
      (deduct_quantity db item_id amount reason user).1.history =
        db.history ++ [{ inventory_id := item.id
                         change_type := "auto_deducted"
                         quantity_before := item.quantity
                         quantity_after := max 0 (item.quantity - amount)
                         reason := some reason
                         changed_by := user }] ∧
      getQty (deduct_quantity db item_id amount reason user).1 item_id =
        some (max 0 (item.quantity - amount)) ∧
      (0 : ℚ) ≤ max 0 (item.quantity - amount) ∧
      (item.quantity < amount →
        getQty (deduct_quantity db item_id amount reason user).1 item_id = some 0) ∧
      (deduct_quantity db item_id amount reason user).1.items.map itemKey =
        db.items.map itemKey) := by
  constructor
  · intro h
    simp [deduct_quantity, h]
  · intro item h
    have hfound : (deduct_quantity db item_id amount reason user) =
        ({ db with
           items := replaceFirstBy (fun i => i.id == item_id)
             (fun i => { i with quantity := max 0 (item.quantity - amount) }) db.items
           history := db.history ++
             [{ inventory_id := item.id
                change_type := "auto_deducted"
                quantity_before := item.quantity
                quantity_after := max 0 (item.quantity - amount)
                reason := some reason
                changed_by := user }] }, true) := by
      simp [deduct_quantity, h]
    refine ⟨by rw [hfound], by rw [hfound], ?_, ?_, ?_, ?_⟩
    · rw [hfound]
      show ((replaceFirstBy _ _ db.items).find? _).map _ = _
      rw [find?_replaceFirstBy_self _ h (by simpa using List.find?_some h)]
      rfl
    · exact le_max_left 0 _
    · intro hlt
      rw [hfound]
      show ((replaceFirstBy _ _ db.items).find? _).map _ = _
      rw [find?_replaceFirstBy_self _ h (by simpa using List.find?_some h)]
      have hz : max 0 (item.quantity - amount) = 0 :=
        max_eq_left (by linarith)
      simp [hz]
    · rw [hfound]
      exact replaceFirstBy_map (p := fun i => i.id == item_id)
        (f := fun i => { i with quantity := max 0 (item.quantity - amount) })
        itemKey (fun x => rfl) db.items

/-- Concrete fixture for the deduct claim: a single ten-unit item. -/
def invFixtureC3 : InvDb :=
  { items := [{ id := 0, item_name := "Tomatoes", quantity := 10 }]
    history := []
    nextId := 1 }

/-- Witness for C3 at a concrete store: deducting 25 from 10 clamps to 0
and succeeds, deducting from an absent id fails without any change. -/
theorem claim_C3_witness :
    (deduct_quantity invFixtureC3 0 25 "Used for Stew" none).2 = true ∧
    getQty (deduct_quantity invFixtureC3 0 25 "Used for Stew" none).1 0 = some 0 ∧
    deduct_quantity invFixtureC3 7 25 "Used for Stew" none = (invFixtureC3, false) := by
  have h := claim_C3_deduct_zero_floor invFixtureC3 0 25 "Used for Stew" none
  have h2 := h.2 { id := 0, item_name := "Tomatoes", quantity := 10 } rfl
  have h3 := claim_C3_deduct_zero_floor invFixtureC3 7 25 "Used for Stew" none
  exact ⟨h2.1, h2.2.2.2.2.1 (by norm_num), h3.1 rfl⟩

/-! ## Claim C5: favorite status formula -/

/-- C5: the summary marks a recipe favorite exactly when the rating count
reaches the configured minimum and the approval ratio reaches the
configured threshold; with zero ratings (and the positive minimum the
settings table enforces by check constraint) the verdict is false and no
division by zero occurs, the zero-total branch being explicitly guarded. -/
theorem claim_C5_favorite_formula (ratings : List Rating)
    (settings : Option AppSettings) (recipe_id : Nat) :
    ((get_rating_summary ratings settings recipe_id).is_favorite =
      (decide ((get_rating_summary ratings settings recipe_id).total_ratings ≥
          minRatersOf settings) &&
       decide ((((get_rating_summary ratings settings recipe_id).thumbs_up_count : ℚ) /
          ((get_rating_summary ratings settings recipe_id).total_ratings : ℚ)) ≥
          thresholdOf settings))) ∧
    ((get_rating_summary ratings settings recipe_id).total_ratings = 0 →
      1 ≤ minRatersOf settings →
      (get_rating_summary ratings settings recipe_id).is_favorite = false) := by
  constructor
  · show (get_rating_summary ratings settings recipe_id).is_favorite = _
    simp only [get_rating_summary]
    by_cases hmin :
        (ratings.filter (fun r => r.recipe_id == recipe_id)).length ≥ minRatersOf settings
    · rw [if_pos hmin]
      by_cases htot : (ratings.filter (fun r => r.recipe_id == recipe_id)).length > 0
      · simp [htot, hmin]
      · have h0 : (ratings.filter (fun r => r.recipe_id == recipe_id)).length = 0 := by
          omega
        have hrs : ratings.filter (fun r => r.recipe_id == recipe_id) = [] :=
          List.length_eq_zero.mp h0
        have hm0 : minRatersOf settings = 0 := by
          rw [h0] at hmin; omega
        simp [hrs, hm0]
    · rw [if_neg hmin]
      simp [hmin]
  · intro h0 hpos
    have h0' : (ratings.filter (fun r => r.recipe_id == recipe_id)).length = 0 := h0
    show (get_rating_summary ratings settings recipe_id).is_favorite = false
    simp only [get_rating_summary]
    rw [if_neg (by omega)]

/-- Settings fixture with the default thresholds of the test suite. -/
def settingsFixture : AppSettings :=
  { favorites_threshold := 3 / 4
    favorites_min_raters := 3
    rotation_period_days := 14
    low_stock_threshold_percent := 1 / 5
    expiration_warning_days := 7 }

/-- Four thumbs up. -/
def ratingsFourUp : List Rating :=
  [{ id := 1, recipe_id := 1, user_id := 1, rating := true },
   { id := 2, recipe_id := 1, user_id := 2, rating := true },
   { id := 3, recipe_id := 1, user_id := 3, rating := true },
   { id := 4, recipe_id := 1, user_id := 4, rating := true }]

/-- Two thumbs up, two thumbs down. -/
def ratingsSplit : List Rating :=
  [{ id := 1, recipe_id := 1, user_id := 1, rating := true },
   { id := 2, recipe_id := 1, user_id := 2, rating := true },
   { id := 3, recipe_id := 1, user_id := 3, rating := false },
   { id := 4, recipe_id := 1, user_id := 4, rating := false }]

/-- A single thumbs up. -/
def ratingsOneUp : List Rating :=
  [{ id := 1, recipe_id := 1, user_id := 1, rating := true }]

/-- Witness for C5 at the claim instances: with `min_raters=3` and
`threshold=0.75`, four-up is a favorite, an even split is not, a lone up
vote is not, and an unrated recipe is not. -/
theorem claim_C5_witness :
    (get_rating_summary ratingsFourUp (some settingsFixture) 1).is_favorite = true ∧
    (get_rating_summary ratingsSplit (some settingsFixture) 1).is_favorite = false ∧
    (get_rating_summary ratingsOneUp (some settingsFixture) 1).is_favorite = false ∧
    (get_rating_summary [] (some settingsFixture) 1).is_favorite = false := by
  refine ⟨?_, ?_, ?_, ?_⟩
  · rw [(claim_C5_favorite_formula ratingsFourUp (some settingsFixture) 1).1]
    norm_num [get_rating_summary, ratingsFourUp, settingsFixture, minRatersOf, thresholdOf]
  · rw [(claim_C5_favorite_formula ratingsSplit (some settingsFixture) 1).1]
    norm_num [get_rating_summary, ratingsSplit, settingsFixture, minRatersOf, thresholdOf]
  · rw [(claim_C5_favorite_formula ratingsOneUp (some settingsFixture) 1).1]
    norm_num [get_rating_summary, ratingsOneUp, settingsFixture, minRatersOf, thresholdOf]
  · exact (claim_C5_favorite_formula [] (some settingsFixture) 1).2 rfl (by norm_num [minRatersOf, settingsFixture])

/-! ## Claim C8: expiring-items window selection -/

/-- Inventory fixture reproducing `test_get_expiring_items_custom_days`:
relative to day 0, Milk expires in 2 days and Eggs in 5. -/
def invFixtureC8 : InvDb :=
  { items := [{ id := 0, item_name := "Milk", quantity := 2, unit := some "L"
                category := some "dairy", location := some "fridge"
                expiration_date := some 2, minimum_stock := 1 },
              { id := 1, item_name := "Eggs", quantity := 12, unit := some "pcs"
                category := some "dairy", location := some "fridge"
                expiration_date := some 5, minimum_stock := 6 }]
    history := []
    nextId := 2 }

/-- C8 (divergence witness): with a settings row present
(`expiration_warning_days = 7`) a caller-supplied window of 3 days is
ignored - the code returns both the 2-day and the 5-day item, where the
claim (and the repository test, which asserts exactly one item) requires
only the 2-day item; the caller-supplied window only takes effect when no
settings row exists at all. -/
theorem claim_C8_settings_override_caller_days :
    ((get_expiring_items invFixtureC8 (some settingsFixture) 0 3).map
        (fun p => (p.1.item_name, p.2)) = [("Milk", 2), ("Eggs", 5)]) ∧
    ((get_expiring_items invFixtureC8 none 0 3).map
        (fun p => (p.1.item_name, p.2)) = [("Milk", 2)]) := by
  constructor
  · rfl
  · rfl

/-! ## Claim C9: mutating another user's rating -/

/-- A single rating owned by user 1. -/
def ratingsFixtureC9 : List Rating :=
  [{ id := 1, recipe_id := 1, user_id := 1, rating := true,
     feedback := some "Great recipe!" }]

/-- Update payload used against the fixture. -/
def ratingDataC9 : RatingCreate := { rating := false }

/-- C9 (counterexample): updating or deleting the rating as user 2, who
does not own it, produces EXACTLY the same outcome as operating on a
rating id that does not exist at all - `(db, none)` and `(db, false)`,
surfaced by the API as the one 404 response
"Rating not found or unauthorized".  There is no Unauthorized failure
distinct from NotFound, refuting the claim as stated (the rating is,
however, left unchanged). -/
theorem claim_C9_counterexample :
    update_rating ratingsFixtureC9 1 2 ratingDataC9 =
      update_rating ratingsFixtureC9 99 2 ratingDataC9 ∧
    update_rating ratingsFixtureC9 1 2 ratingDataC9 = (ratingsFixtureC9, none) ∧
    delete_rating ratingsFixtureC9 1 2 =
      delete_rating ratingsFixtureC9 99 2 ∧
    delete_rating ratingsFixtureC9 1 2 = (ratingsFixtureC9, false) :=
  ⟨rfl, rfl, rfl, rfl⟩

/-- C9 (amended): for every rating store in which the rating with the
requested id is not owned by the actor, update and delete fail - leaving
every rating unchanged - but they fail with the same not-found result
(`none` / `false`) that a nonexistent rating id produces, not with a
distinct Unauthorized error. -/
theorem claim_C9_ownership_failure (db : List Rating) (rating_id user_id : Nat)
    (data : RatingCreate)
    (h : ∀ r ∈ db, r.id = rating_id → r.user_id ≠ user_id) :
    update_rating db rating_id user_id data = (db, none) ∧
    delete_rating db rating_id user_id = (db, false) := by
  have hnone : db.find? (fun r => r.id == rating_id && r.user_id == user_id) = none := by
    apply List.find?_eq_none.2
    intro r hr
    simp only [Bool.and_eq_true, beq_iff_eq, not_and]
    exact fun hid hu => h r hr hid hu
  constructor
  · simp [update_rating, hnone]
  · simp [delete_rating, hnone]

/-- Witness for the amended C9 at the concrete fixture. -/
theorem claim_C9_witness :
    update_rating ratingsFixtureC9 1 2 ratingDataC9 = (ratingsFixtureC9, none) ∧
    delete_rating ratingsFixtureC9 1 2 = (ratingsFixtureC9, false) :=
  claim_C9_ownership_failure ratingsFixtureC9 1 2 ratingDataC9 (by decide)

/-! ## Claim C6: recipe version immutability under update -/

/-- C6: a successful update appends version `current+1` as a brand-new
snapshot built from the submitted data, leaving every previously stored
version (and hence its ingredient and instruction data) untouched, so a
later lookup of any pre-existing version - in particular version `N-1` -
still returns exactly the row created back then. -/
theorem claim_C6_version_immutability (recipes : List RecipeRow) (recipe_id : Nat)
    (data : RecipeUpdate) (user_id : Nat) (r : RecipeRow) (v : Nat)
    (ver : RecipeVersionRow)
    (hr : findLiveRecipe recipes recipe_id = some r)
    (hv : findVersion r v = some ver) :
    ∃ r' nv,
      (update_recipe recipes recipe_id data user_id).2 = some r' ∧
      (update_recipe recipes recipe_id data user_id).1 =
        replaceFirstBy (fun x => x.id == recipe_id && !x.is_deleted)
          (fun _ => r') recipes ∧
      r'.versions = r.versions ++ [nv] ∧
      nv.version_number = r.current_version + 1 ∧
      nv.instructions = data.instructions ∧
      nv.ingredients = ingredientRowsOf data.ingredients ∧
      r'.current_version = r.current_version + 1 ∧
      (∀ w wver, findVersion r w = some wver → findVersion r' w = some wver) ∧
      findVersion r' v = some ver ∧
      findLiveRecipe (update_recipe recipes recipe_id data user_id).1 recipe_id =
        some r' := by
  have hr' : recipes.find? (fun x : RecipeRow => x.id == recipe_id && !x.is_deleted) =
      some r := hr
  have hp : (r.id == recipe_id && !r.is_deleted) = true :=
    List.find?_some (p := fun x : RecipeRow => x.id == recipe_id && !x.is_deleted) hr'
  simp only [update_recipe, hr]
  refine ⟨_, _, rfl, rfl, rfl, rfl, rfl, rfl, rfl, ?_, ?_, ?_⟩
  · intro w wver hw
    exact find?_append_some _ hw
  · exact find?_append_some _ hv
  · exact find?_replaceFirstBy_self _ hr' hp

/-- Recipe fixture: two versions, currently at version 2. -/
def recipeFixture : RecipeRow :=
  { id := 1
    title := "Test Recipe"
    current_version := 2
    versions :=
      [{ version_number := 1
         prep_time_minutes := some 15
         cook_time_minutes := some 30
         servings := some 4
         difficulty := some "medium"
         instructions := "old instructions"
         modified_by := 1
         ingredients := [{ name := "chicken", quantity := some 500, unit := some "g",
                           category := some "meat", display_order := 0 },
                         { name := "rice", quantity := some 200, unit := some "g",
                           category := some "grain", display_order := 1 }] },
       { version_number := 2
         prep_time_minutes := some 10
         cook_time_minutes := some 20
         servings := some 2
         difficulty := some "easy"
         instructions := "new instructions"
         modified_by := 1
         ingredients := [{ name := "rice", quantity := some 100, unit := some "g",
                           category := some "grain", display_order := 0 }] }] }

/-- Update payload used against the fixture. -/
def updateFixture : RecipeUpdate :=
  { title := "Test Recipe v3"
    servings := some 6
    difficulty := some "hard"
    ingredients := [{ name := "beans", quantity := some 300, unit := some "g" }]
    instructions := "v3 instructions" }

/-- Witness for C6: after updating the two-version fixture, version 1 is
still retrievable with its original ingredient and instruction data. -/
theorem claim_C6_witness :
    ∃ r' nv,
      (update_recipe [recipeFixture] 1 updateFixture 9).2 = some r' ∧
      (update_recipe [recipeFixture] 1 updateFixture 9).1 =
        replaceFirstBy (fun x => x.id == 1 && !x.is_deleted) (fun _ => r')
          [recipeFixture] ∧
      r'.versions = recipeFixture.versions ++ [nv] ∧
      nv.version_number = 3 ∧
      nv.instructions = "v3 instructions" ∧
      nv.ingredients = ingredientRowsOf updateFixture.ingredients ∧
      r'.current_version = 3 ∧
      (∀ w wver, findVersion recipeFixture w = some wver →
        findVersion r' w = some wver) ∧
      findVersion r' 1 = some (recipeFixture.versions.head (by simp [recipeFixture])) ∧
      findLiveRecipe (update_recipe [recipeFixture] 1 updateFixture 9).1 1 =
        some r' :=
  claim_C6_version_immutability [recipeFixture] 1 updateFixture 9 recipeFixture 1
    (recipeFixture.versions.head (by simp [recipeFixture])) rfl rfl

/-! ## Claim C7: revert creates a new version and never rewinds -/

/-- C7: revert fails with a not-found result when the recipe is absent or
soft-deleted or the target version is absent; on success it appends a
brand-new version numbered `current+1` whose scalar fields equal the
target version fields and whose ingredient rows are exactly the target
rows (copied field by field, reordered by display order only), and it
advances `current_version` to that new number - strictly increasing, and
never rewinding to the target number. -/
theorem claim_C7_revert_monotonic (recipes : List RecipeRow)
    (recipe_id version_number user_id : Nat) :
    (findLiveRecipe recipes recipe_id = none →
      revert_recipe recipes recipe_id version_number user_id = (recipes, none)) ∧
    (∀ r, findLiveRecipe recipes recipe_id = some r →
      findVersion r version_number = none →
      revert_recipe recipes recipe_id version_number user_id = (recipes, none)) ∧
    (∀ r target, findLiveRecipe recipes recipe_id = some r →
      findVersion r version_number = some target →
      ∃ r' nv,
        (revert_recipe recipes recipe_id version_number user_id).2 = some r' ∧
        r'.current_version = r.current_version + 1 ∧
        r.current_version < r'.current_version ∧
        (version_number ≤ r.current_version →
          version_number < r'.current_version) ∧
        r'.versions = r.versions ++ [nv] ∧
        nv.version_number = r.current_version + 1 ∧
        nv.prep_time_minutes = target.prep_time_minutes ∧
        nv.cook_time_minutes = target.cook_time_minutes ∧
        nv.servings = target.servings ∧
        nv.difficulty = target.difficulty ∧
        nv.instructions = target.instructions ∧
        nv.ingredients.Perm target.ingredients ∧
        findLiveRecipe (revert_recipe recipes recipe_id version_number user_id).1
          recipe_id = some r') := by
  refine ⟨?_, ?_, ?_⟩
  · intro h
    simp [revert_recipe, h]
  · intro r hr hv
    simp [revert_recipe, hr, hv]
  · intro r target hr hv
    have hr' : recipes.find?
        (fun x : RecipeRow => x.id == recipe_id && !x.is_deleted) = some r := hr
    have hp : (r.id == recipe_id && !r.is_deleted) = true :=
      List.find?_some (p := fun x : RecipeRow => x.id == recipe_id && !x.is_deleted) hr'
    have hcopy : (sortByDisplayOrder target.ingredients).map
        (fun ing : IngredientRow =>
          ({ name := ing.name, quantity := ing.quantity, unit := ing.unit,
             category := ing.category, is_optional := ing.is_optional,
             display_order := ing.display_order } : IngredientRow)) =
        sortByDisplayOrder target.ingredients := by
      rw [show (fun ing : IngredientRow =>
          ({ name := ing.name, quantity := ing.quantity, unit := ing.unit,
             category := ing.category, is_optional := ing.is_optional,
             display_order := ing.display_order } : IngredientRow)) = id from
        funext fun _ => rfl]
      exact List.map_id _
    simp only [revert_recipe, hr, hv]
    refine ⟨_, _, rfl, rfl, Nat.lt_succ_self _, fun hle => Nat.lt_succ_of_le hle,
      rfl, rfl, rfl, rfl, rfl, rfl, rfl, ?_, ?_⟩
    · show ((sortByDisplayOrder target.ingredients).map _).Perm target.ingredients
      rw [hcopy]
      exact sortLe_perm _ target.ingredients
    · exact find?_replaceFirstBy_self _ hr' hp

/-- Witness for C7 at the two-version fixture: reverting to version 1
creates version 3 with the fields of version 1. -/
theorem claim_C7_witness :
    ∃ r' nv,
      (revert_recipe [recipeFixture] 1 1 9).2 = some r' ∧
      r'.current_version = 3 ∧
      recipeFixture.current_version < r'.current_version ∧
      (1 ≤ recipeFixture.current_version → 1 < r'.current_version) ∧
      r'.versions = recipeFixture.versions ++ [nv] ∧
      nv.version_number = 3 ∧
      nv.prep_time_minutes = some 15 ∧
      nv.cook_time_minutes = some 30 ∧
      nv.servings = some 4 ∧
      nv.difficulty = some "medium" ∧
      nv.instructions = "old instructions" ∧
      nv.ingredients.Perm
        (recipeFixture.versions.head (by simp [recipeFixture])).ingredients ∧
      findLiveRecipe (revert_recipe [recipeFixture] 1 1 9).1 1 = some r' :=
  (claim_C7_revert_monotonic [recipeFixture] 1 1 9).2.2 recipeFixture
    (recipeFixture.versions.head (by simp [recipeFixture])) rfl rfl

/-! ## Claim C2: the ledger replay invariant -/

theorem chainFrom_append (rs : List InventoryHistory) (r : InventoryHistory) (q : ℚ) :
    chainFrom q (rs ++ [r]) ↔
      chainFrom q rs ∧ r.quantity_before = replayFrom q rs := by
  induction rs generalizing q with
  | nil => simp [chainFrom, replayFrom]
  | cons s ss ih => simp [chainFrom, replayFrom, ih, and_assoc]

theorem replayFrom_append (rs : List InventoryHistory) (r : InventoryHistory) (q : ℚ) :
    replayFrom q (rs ++ [r]) = r.quantity_after := by
  induction rs generalizing q with
  | nil => simp [replayFrom]
  | cons s ss ih => simp [replayFrom, ih]

/-- Modifying the first item found by id, appending matching history rows
that bracket exactly the quantity change, preserves the ledger invariant
and pairs the change with its row. -/
theorem ledger_modify (db : InvDb) (j : Nat) (f : InventoryItem → InventoryItem)
    (item : InventoryItem) (rows : List InventoryHistory)
    (hfind : db.items.find? (fun i => i.id == j) = some item)
    (hid : (f item).id = item.id)
    (hq : (rows = [] ∧ (f item).quantity = item.quantity) ∨
      (∃ row, rows = [row] ∧ row.inventory_id = item.id ∧
        row.quantity_before = item.quantity ∧
        row.quantity_after = (f item).quantity))
    (hInv : LedgerInv db) :
    LedgerInv { db with
      items := replaceFirstBy (fun i => i.id == j) f db.items
      history := db.history ++ rows } ∧
    StepPairing db { db with
      items := replaceFirstBy (fun i => i.id == j) f db.items
      history := db.history ++ rows } := by
  obtain ⟨hids, hhist, hnodup, hchain⟩ := hInv
  obtain ⟨l₁, l₂, hl, hfalse, hrep⟩ := find?_decomp hfind
  have hjitem : item.id = j := by
    have := List.find?_some (p := fun i : InventoryItem => i.id == j) hfind
    simpa using this
  have hmem : item ∈ db.items := List.mem_of_find?_eq_some hfind
  have hrows_id : ∀ x ∈ rows, x.inventory_id = item.id := by
    rcases hq with ⟨hr, _⟩ | ⟨row, hr, hrid, _, _⟩
    · simp [hr]
    · simp [hr, hrid]
  have hmap : (replaceFirstBy (fun i => i.id == j) f db.items).map (fun i => i.id) =
      db.items.map (fun i => i.id) := by
    rw [hrep f, hl]
    simp [hid]
  have hl₁ : ∀ x ∈ l₁, x.id ≠ item.id := by
    intro x hx
    have := hfalse x hx
    simp only [beq_eq_false_iff_ne, ne_eq] at this
    rw [hjitem]
    exact this
  have hl₂ : ∀ x ∈ l₂, x.id ≠ item.id := by
    intro x hx heq
    have hnd := hnodup
    rw [hl, List.map_append, List.map_cons] at hnd
    have h2 := (List.nodup_append.mp hnd).2.1
    have h3 := (List.nodup_cons.mp h2).1
    exact h3 (heq ▸ List.mem_map_of_mem (fun i => i.id) hx)
  have hhistFor : ∀ k, historyFor { db with
      items := replaceFirstBy (fun i => i.id == j) f db.items
      history := db.history ++ rows } k =
      historyFor db k ++ rows.filter (fun r => r.inventory_id == k) := by
    intro k
    show (db.history ++ rows).filter _ = _
    rw [List.filter_append]
    rfl
  have hfilter_ne : ∀ k, k ≠ item.id →
      rows.filter (fun r => r.inventory_id == k) = [] := by
    intro k hk
    apply List.filter_eq_nil_iff.2
    intro x hx
    simp [hrows_id x hx, hk, Ne.symm hk]
  have hfilter_item : rows.filter (fun r => r.inventory_id == item.id) = rows := by
    apply List.filter_eq_self.2
    intro x hx
    simp [hrows_id x hx]
  have hfind_old : db.items.find? (fun i => i.id == item.id) = some item := by
    rw [hl, List.find?_append]
    have h1 : l₁.find? (fun i => i.id == item.id) = none :=
      List.find?_eq_none.2 (fun x hx => by simp [hl₁ x hx])
    simp [h1, List.find?_cons]
  have hfind_new : (replaceFirstBy (fun i => i.id == j) f db.items).find?
      (fun i => i.id == item.id) = some (f item) := by
    rw [hrep f, List.find?_append]
    have h1 : l₁.find? (fun i => i.id == item.id) = none :=
      List.find?_eq_none.2 (fun x hx => by simp [hl₁ x hx])
    simp [h1, List.find?_cons, hid]
  constructor
  · refine ⟨?_, ?_, ?_, ?_⟩
    · intro i hi
      have hmm : i.id ∈ db.items.map (fun x => x.id) := by
        rw [← hmap]
        exact List.mem_map_of_mem _ hi
      obtain ⟨i₀, h₀, he⟩ := List.mem_map.mp hmm
      exact he ▸ hids i₀ h₀
    · intro x hx
      rcases List.mem_append.mp hx with hx | hx
      · exact hhist x hx
      · rw [hrows_id x hx]
        exact hids item hmem
    · show ((replaceFirstBy _ f db.items).map (fun i => i.id)).Nodup
      rw [hmap]
      exact hnodup
    · intro i hi
      rw [hrep f] at hi
      rw [hhistFor]
      rcases List.mem_append.mp hi with hi | hi
      · have hne : i.id ≠ item.id := hl₁ i hi
        rw [hfilter_ne i.id hne, List.append_nil]
        exact hchain i (hl ▸ List.mem_append_left _ hi)
      · rcases List.mem_cons.mp hi with hi | hi
        · subst hi
          rw [hid, hfilter_item]
          have hbase := hchain item hmem
          rcases hq with ⟨hr, hqe⟩ | ⟨row, hr, _, hb, ha⟩
          · subst hr
            rw [List.append_nil, hqe]
            exact hbase
          · subst hr
            refine ⟨(chainFrom_append _ _ _).2 ⟨hbase.1, ?_⟩, ?_⟩
            · rw [hb, hbase.2]
            · rw [replayFrom_append, ha]
        · have hne : i.id ≠ item.id := hl₂ i hi
          rw [hfilter_ne i.id hne, List.append_nil]
          exact hchain i (hl ▸ List.mem_append_right _ (List.mem_cons_of_mem _ hi))
  · intro k hk
    by_cases hkj : k = item.id
    · have hq_old : getQty db k = some item.quantity := by
        rw [hkj]
        simp [getQty, hfind_old]
      have hq_new : getQty { db with
          items := replaceFirstBy (fun i => i.id == j) f db.items
          history := db.history ++ rows } k = some (f item).quantity := by
        rw [hkj]
        simp [getQty, hfind_new]
      rcases hq with ⟨hr, hqe⟩ | ⟨row, hr, _, hb, ha⟩
      · exfalso
        apply hk
        rw [hq_old, hq_new, hqe]
      · subst hr
        refine ⟨row, ?_, ?_, ?_⟩
        · rw [hhistFor, hkj, hfilter_item]
        · rw [hq_old, hb]
          rfl
        · rw [hq_new, ha]
    · exfalso
      apply hk
      have h1 : ((f item).id == k) = false := by
        rw [hid]
        exact beq_eq_false_iff_ne.2 (fun h => hkj h.symm)
      have h2 : (item.id == k) = false :=
        beq_eq_false_iff_ne.2 (fun h => hkj h.symm)
      show ((replaceFirstBy _ f db.items).find? _).map _ = (db.items.find? _).map _
      rw [hrep f, hl, List.find?_append, List.find?_append]
      simp [List.find?_cons, h1, h2]

/-- Creating an item with a fresh generated key preserves the ledger
invariant and pairs the new quantity with its `purchased` row. -/
theorem ledger_create (db : InvDb) (d : InventoryItemCreate) (u : Nat)
    (hInv : LedgerInv db) :
    LedgerInv (create_item db d u).1 ∧ StepPairing db (create_item db d u).1 := by
  obtain ⟨hids, hhist, hnodup, hchain⟩ := hInv
  have hfresh : ∀ i ∈ db.items, (i.id == db.nextId) = false := by
    intro i hi
    exact beq_eq_false_iff_ne.2 (Nat.ne_of_lt (hids i hi))
  have hfresh_hist : historyFor db db.nextId = [] := by
    apply List.filter_eq_nil_iff.2
    intro r hr
    simp [Nat.ne_of_lt (hhist r hr)]
  constructor
  · refine ⟨?_, ?_, ?_, ?_⟩
    · intro i hi
      rcases List.mem_append.mp hi with hi | hi
      · exact Nat.lt_succ_of_lt (hids i hi)
      · rcases List.mem_cons.mp hi with hi | hi
        · rw [hi]
          exact Nat.lt_succ_self _
        · simp at hi
    · intro r hr
      rcases List.mem_append.mp hr with hr | hr
      · exact Nat.lt_succ_of_lt (hhist r hr)
      · rcases List.mem_cons.mp hr with hr | hr
        · rw [hr]
          exact Nat.lt_succ_self _
        · simp at hr
    · show ((db.items ++ [_]).map (fun i : InventoryItem => i.id)).Nodup
      rw [List.map_append]
      apply List.nodup_append.2
      refine ⟨hnodup, List.nodup_singleton _, ?_⟩
      intro a ha hb
      simp only [List.map_cons, List.map_nil, List.mem_singleton] at hb
      obtain ⟨i₀, h₀, he⟩ := List.mem_map.mp ha
      have hbe : (i₀.id == db.nextId) = true := by
        rw [he, hb]
        exact beq_self_eq_true _
      rw [hfresh i₀ h₀] at hbe
      exact Bool.false_ne_true hbe
    · intro i hi
      show chainFrom 0 ((db.history ++ _).filter _) ∧
        replayFrom 0 ((db.history ++ _).filter _) = i.quantity
      rw [List.filter_append]
      rcases List.mem_append.mp hi with hi | hi
      · have hne : (db.nextId == i.id) = false :=
          beq_eq_false_iff_ne.2 (Nat.ne_of_lt (hids i hi)).symm
        simpa [List.filter_cons, List.filter_nil, hne] using hchain i hi
      · rcases List.mem_cons.mp hi with hi | hi
        · rw [hi]
          show chainFrom 0 (historyFor db db.nextId ++ _) ∧
            replayFrom 0 (historyFor db db.nextId ++ _) = _
          rw [hfresh_hist]
          simp [chainFrom, replayFrom, List.filter_cons]
        · simp at hi
  · intro k hk
    by_cases hkn : k = db.nextId
    · subst hkn
      have h1 : db.items.find? (fun i => i.id == db.nextId) = none :=
        List.find?_eq_none.2 (fun i hi => by simp [hfresh i hi])
      have hq_old : getQty db db.nextId = none := by
        simp [getQty, h1]
      have hfind_new : (db.items ++
          [({ id := db.nextId, item_name := d.item_name, quantity := d.quantity,
              unit := d.unit, category := d.category, location := d.location,
              expiration_date := d.expiration_date,
              minimum_stock := d.minimum_stock.getD 0,
              notes := d.notes } : InventoryItem)]).find? (fun i => i.id == db.nextId) =
          some ({ id := db.nextId, item_name := d.item_name, quantity := d.quantity,
                  unit := d.unit, category := d.category, location := d.location,
                  expiration_date := d.expiration_date,
                  minimum_stock := d.minimum_stock.getD 0,
                  notes := d.notes } : InventoryItem) := by
        rw [List.find?_append]
        simp [h1, List.find?_cons]
      refine ⟨{ inventory_id := db.nextId, change_type := "purchased",
                quantity_before := 0, quantity_after := d.quantity,
                reason := some "Initial inventory", changed_by := some u }, ?_, ?_, ?_⟩
      · show (db.history ++ _).filter _ = _
        rw [List.filter_append]
        congr 1
        simp [List.filter_cons]
      · rw [hq_old]
        rfl
      · show ((db.items ++ _).find? _).map _ = _
        rw [hfind_new]
        rfl
    · exfalso
      apply hk
      show ((db.items ++ _).find? (fun i => i.id == k)).map _ = _
      rw [List.find?_append]
      cases hf : db.items.find? (fun i => i.id == k) with
      | none =>
        have h2 : (db.nextId == k) = false :=
          beq_eq_false_iff_ne.2 (fun h => hkn h.symm)
        simp [getQty, hf, List.find?_cons, h2]
      | some a =>
        simp [getQty, hf]

/-- Every single ledger operation preserves the invariant and pairs each
quantity change with exactly one history row. -/
theorem applyOp_preserves (db : InvDb) (op : InvOp) (h : LedgerInv db) :
    LedgerInv (applyOp db op) ∧ StepPairing db (applyOp db op) := by
  cases op with
  | create d u => exact ledger_create db d u h
  | update i d u =>
    cases hfind : db.items.find? (fun x => x.id == i) with
    | none =>
      have heq : applyOp db (.update i d u) = db := by
        simp [applyOp, update_item, hfind]
      rw [heq]
      exact ⟨h, fun k hk => absurd rfl hk⟩
    | some item =>
      cases hdq : d.quantity with
      | none =>
        have heq : applyOp db (.update i d u) = { db with
            items := replaceFirstBy (fun x => x.id == i)
              (fun _ => applyItemUpdate d item) db.items
            history := db.history ++ [] } := by
          simp [applyOp, update_item, hfind, hdq]
        rw [heq]
        exact ledger_modify db i (fun _ => applyItemUpdate d item) item [] hfind rfl
          (Or.inl ⟨rfl, by simp [applyItemUpdate, hdq]⟩) h
      | some nq =>
        by_cases hne : nq = item.quantity
        · have heq : applyOp db (.update i d u) = { db with
              items := replaceFirstBy (fun x => x.id == i)
                (fun _ => applyItemUpdate d item) db.items
              history := db.history ++ [] } := by
            simp [applyOp, update_item, hfind, hdq, hne]
          rw [heq]
          exact ledger_modify db i (fun _ => applyItemUpdate d item) item [] hfind rfl
            (Or.inl ⟨rfl, by simp [applyItemUpdate, hdq, hne]⟩) h
        · have heq : applyOp db (.update i d u) = { db with
              items := replaceFirstBy (fun x => x.id == i)
                (fun _ => applyItemUpdate d item) db.items
              history := db.history ++
                [{ inventory_id := item.id, change_type := "adjusted",
                   quantity_before := item.quantity, quantity_after := nq,
                   reason := some "Manual adjustment", changed_by := some u }] } := by
            simp [applyOp, update_item, hfind, hdq, hne]
          rw [heq]
          exact ledger_modify db i (fun _ => applyItemUpdate d item) item _ hfind rfl
            (Or.inr ⟨_, rfl, rfl, rfl, by simp [applyItemUpdate, hdq]⟩) h
  | deduct i a r u =>
    cases hfind : db.items.find? (fun x => x.id == i) with
    | none =>
      have heq : applyOp db (.deduct i a r u) = db := by
        simp [applyOp, deduct_quantity, hfind]
      rw [heq]
      exact ⟨h, fun k hk => absurd rfl hk⟩
    | some item =>
      have heq : applyOp db (.deduct i a r u) = { db with
          items := replaceFirstBy (fun x => x.id == i)
            (fun x => { x with quantity := max 0 (item.quantity - a) }) db.items
          history := db.history ++
            [{ inventory_id := item.id, change_type := "auto_deducted",
               quantity_before := item.quantity,
               quantity_after := max 0 (item.quantity - a),
               reason := some r, changed_by := u }] } := by
        simp [applyOp, deduct_quantity, hfind]
      rw [heq]
      exact ledger_modify db i (fun x => { x with quantity := max 0 (item.quantity - a) })
        item _ hfind rfl (Or.inr ⟨_, rfl, rfl, rfl, rfl⟩) h

/-- The invariant holds in every state reachable from the empty store. -/
theorem ledgerInv_reachable (ops : List InvOp) :
    LedgerInv (ops.foldl applyOp {}) := by
  have hbase : LedgerInv ({} : InvDb) := by
    refine ⟨?_, ?_, ?_, ?_⟩ <;> simp [LedgerInv]
  have hstep : ∀ (l : List InvOp) (db : InvDb), LedgerInv db →
      LedgerInv (l.foldl applyOp db) := by
    intro l
    induction l with
    | nil => exact fun db h => h
    | cons op l ih =>
      intro db h
      exact ih (applyOp db op) (applyOp_preserves db op h).1

  exact hstep ops {} hbase

/-- C2: starting from the empty store, after any sequence of ledger
operations every item's history - taken in timestamp order - forms a
chain from the creation baseline `quantity_before = 0` whose replay
reproduces the current quantity exactly, and from any reachable state one
further operation pairs every quantity change with exactly one new
history row bracketing it. -/
theorem claim_C2_ledger_replay (ops : List InvOp) :
    (∀ item ∈ (ops.foldl applyOp {}).items,
      chainFrom 0 (historyFor (ops.foldl applyOp {}) item.id) ∧
      replayFrom 0 (historyFor (ops.foldl applyOp {}) item.id) = item.quantity) ∧
    (∀ op, StepPairing (ops.foldl applyOp {}) (applyOp (ops.foldl applyOp {}) op)) := by
  have hInv := ledgerInv_reachable ops
  exact ⟨hInv.2.2.2, fun op => (applyOp_preserves _ op hInv).2⟩

/-- A concrete operation sequence: create at 10, adjust to 12, use 5,
then over-deduct 100 (clamping to 0). -/
def opsFixture : List InvOp :=
  [.create { item_name := "Milk", quantity := 10 } 1,
   .update 0 { quantity := some 12 } 1,
   .deduct 0 5 "Used for Stew" (some 1),
   .deduct 0 100 "Used for Stew" (some 1)]

/-- Witness for C2: on the concrete sequence the item with id 0 replays
from 0 through its four history rows back to its current quantity. -/
theorem claim_C2_witness :
    ∃ item ∈ (opsFixture.foldl applyOp {}).items,
      item.id = 0 ∧ item.quantity = 0 ∧
      chainFrom 0 (historyFor (opsFixture.foldl applyOp {}) item.id) ∧
      replayFrom 0 (historyFor (opsFixture.foldl applyOp {}) item.id) = item.quantity := by
  have hfinal : (opsFixture.foldl applyOp {}).items =
      [{ id := 0, item_name := "Milk", quantity := 0 }] := by
    norm_num [opsFixture, List.foldl, applyOp, create_item, update_item,
      deduct_quantity, applyItemUpdate, replaceFirstBy]
  refine ⟨{ id := 0, item_name := "Milk", quantity := 0 }, by rw [hfinal]; simp, rfl, rfl,
    ?_, ?_⟩
  · exact ((claim_C2_ledger_replay opsFixture).1 _ (by rw [hfinal]; simp)).1
  · exact ((claim_C2_ledger_replay opsFixture).1 _ (by rw [hfinal]; simp)).2

/-! ## Claim C1: the cooking event processor -/

theorem deduct_items_key (db : InvDb) (id : Nat) (q : ℚ) (r : String)
    (u : Option Nat) :
    ((deduct_quantity db id q r u).1).items.map itemKey = db.items.map itemKey := by
  cases hf : db.items.find? (fun i => i.id == id) with
  | none => simp [deduct_quantity, hf]
  | some item =>
    simp only [deduct_quantity, hf]
    exact replaceFirstBy_map (p := fun i => i.id == id)
      (f := fun i => { i with quantity := max 0 (item.quantity - q) })
      itemKey (fun x => rfl) db.items

theorem deduct_history_suffix (db : InvDb) (id : Nat) (q : ℚ) (r : String)
    (u : Option Nat) :
    ∃ rows, ((deduct_quantity db id q r u).1).history = db.history ++ rows ∧
      ∀ x ∈ rows, x.change_type = "auto_deducted" ∧ x.reason = some r := by
  cases hf : db.items.find? (fun i => i.id == id) with
  | none => exact ⟨[], by simp [deduct_quantity, hf], by simp⟩
  | some item =>
    refine ⟨[{ inventory_id := item.id, change_type := "auto_deducted",
               quantity_before := item.quantity,
               quantity_after := max 0 (item.quantity - q),
               reason := some r, changed_by := u }], ?_, ?_⟩
    · simp [deduct_quantity, hf]
    · simp

theorem deduct_success (db : InvDb) (id : Nat) (q : ℚ) (r : String)
    (u : Option Nat) (h : ∃ i ∈ db.items, i.id = id) :
    (deduct_quantity db id q r u).2 = true := by
  obtain ⟨i, hi, he⟩ := h
  cases hf : db.items.find? (fun x => x.id == id) with
  | none =>
    exfalso
    have := List.find?_eq_none.mp hf i hi
    simp [he] at this
  | some item => simp [deduct_quantity, hf]

theorem findInvByName_key (l₁ l₂ : List InventoryItem)
    (h : l₁.map itemKey = l₂.map itemKey) (nm : String) :
    (findInvByName l₁ nm).map itemKey = (findInvByName l₂ nm).map itemKey := by
  induction l₁ generalizing l₂ with
  | nil =>
    cases l₂ with
    | nil => rfl
    | cons y ys => simp at h
  | cons x xs ih =>
    cases l₂ with
    | nil => simp at h
    | cons y ys =>
      simp only [List.map_cons, List.cons.injEq] at h
      obtain ⟨hxy, hrest⟩ := h
      have hname : x.item_name = y.item_name := congrArg Prod.snd hxy
      show ((x :: xs).find? _).map _ = ((y :: ys).find? _).map _
      rw [List.find?_cons, List.find?_cons]
      cases hpx : nameMatches x.item_name nm with
      | true =>
        have hpy : nameMatches y.item_name nm = true := by rw [← hname]; exact hpx
        simp [hpy, hxy]
      | false =>
        have hpy : nameMatches y.item_name nm = false := by rw [← hname]; exact hpx
        simp only [hpy]
        exact ih ys hrest

/-- The deduction loop returns exactly the changes predicted from the
initial inventory, preserves item keys and names, and only ever appends
`auto_deducted` rows carrying the cooking reason. -/
theorem deductStep_foldl (title : String) (uid : Nat) (ratio : ℚ)
    (items0 : List InventoryItem) :
    ∀ (ings : List IngredientRow) (inv : InvDb) (cs : List InventoryChange),
      inv.items.map itemKey = items0.map itemKey →
      (ings.foldl (deductStep title uid ratio) (inv, cs)).2 =
        cs ++ expectedChanges items0 ratio ings ∧
      ((ings.foldl (deductStep title uid ratio) (inv, cs)).1).items.map itemKey =
        items0.map itemKey ∧
      ∃ rows, ((ings.foldl (deductStep title uid ratio) (inv, cs)).1).history =
        inv.history ++ rows ∧
        ∀ x ∈ rows, x.change_type = "auto_deducted" ∧
          x.reason = some ("Used for " ++ title) := by
  intro ings
  induction ings with
  | nil =>
    intro inv cs h
    exact ⟨by simp [expectedChanges], h, ⟨[], by simp, by simp⟩⟩
  | cons ing ings ih =>
    intro inv cs h
    by_cases hopt : ing.is_optional
    · have hstep : deductStep title uid ratio (inv, cs) ing = (inv, cs) := by
        simp [deductStep, hopt]
      have hexp : expectedChanges items0 ratio (ing :: ings) =
          expectedChanges items0 ratio ings := by
        simp [expectedChanges, List.filterMap_cons, hopt]
      rw [List.foldl_cons, hstep, hexp]
      exact ih inv cs h
    · have hkey := findInvByName_key inv.items items0 h ing.name
      cases hfound : findInvByName inv.items ing.name with
      | none =>
        have hf0 : findInvByName items0 ing.name = none := by
          rw [hfound] at hkey
          cases hf0 : findInvByName items0 ing.name with
          | none => rfl
          | some z => rw [hf0] at hkey; simp at hkey
        have hstep : deductStep title uid ratio (inv, cs) ing = (inv, cs) := by
          simp [deductStep, hopt, hfound]
        have hexp : expectedChanges items0 ratio (ing :: ings) =
            expectedChanges items0 ratio ings := by
          simp [expectedChanges, List.filterMap_cons, hopt, hf0]
        rw [List.foldl_cons, hstep, hexp]
        exact ih inv cs h
      | some item =>
        rw [hfound] at hkey
        cases hf0 : findInvByName items0 ing.name with
        | none =>
          exfalso
          rw [hf0] at hkey
          simp at hkey
        | some item0 =>
          rw [hf0] at hkey
          have hname : item.item_name = item0.item_name := by
            have : itemKey item = itemKey item0 := by simpa using hkey
            exact congrArg Prod.snd this
          cases hq : ing.quantity with
          | none =>
            have hstep : deductStep title uid ratio (inv, cs) ing = (inv, cs) := by
              simp [deductStep, hopt, hfound, hq]
            have hexp : expectedChanges items0 ratio (ing :: ings) =
                expectedChanges items0 ratio ings := by
              simp [expectedChanges, List.filterMap_cons, hopt, hf0, hq]
            rw [List.foldl_cons, hstep, hexp]
            exact ih inv cs h
          | some q =>
            by_cases hq0 : q = 0
            · have hstep : deductStep title uid ratio (inv, cs) ing = (inv, cs) := by
                simp [deductStep, hopt, hfound, hq, hq0]
              have hexp : expectedChanges items0 ratio (ing :: ings) =
                  expectedChanges items0 ratio ings := by
                simp [expectedChanges, List.filterMap_cons, hopt, hf0, hq, hq0]
              rw [List.foldl_cons, hstep, hexp]
              exact ih inv cs h
            · have hmem : item ∈ inv.items := List.mem_of_find?_eq_some hfound
              have hsucc := deduct_success inv item.id (q * ratio)
                ("Used for " ++ title) (some uid) ⟨item, hmem, rfl⟩
              have hstep : deductStep title uid ratio (inv, cs) ing =
                  ((deduct_quantity inv item.id (q * ratio)
                      ("Used for " ++ title) (some uid)).1,
                   cs ++ [{ item_name := item.item_name,
                            quantity_deducted := q * ratio }]) := by
                simp [deductStep, hopt, hfound, hq, hq0, hsucc]
              rw [List.foldl_cons, hstep]
              have h' : ((deduct_quantity inv item.id (q * ratio)
                  ("Used for " ++ title) (some uid)).1).items.map itemKey =
                  items0.map itemKey :=
                (deduct_items_key inv item.id (q * ratio) _ _).trans h
              obtain ⟨h2a, h2b, rows, h2c, h2d⟩ := ih _ _ h'
              refine ⟨?_, h2b, ?_⟩
              · rw [h2a]
                have hexp : expectedChanges items0 ratio (ing :: ings) =
                    { item_name := item0.item_name, quantity_deducted := q * ratio } ::
                      expectedChanges items0 ratio ings := by
                  simp [expectedChanges, List.filterMap_cons, hopt, hf0, hq, hq0]
                rw [hexp, hname]
                simp
              · obtain ⟨rows1, hr1, hr1p⟩ := deduct_history_suffix inv item.id
                  (q * ratio) ("Used for " ++ title) (some uid)
                refine ⟨rows1 ++ rows, ?_, ?_⟩
                · rw [h2c, hr1, List.append_assoc]
                · intro x hx
                  rcases List.mem_append.mp hx with hx | hx
                  · exact hr1p x hx
                  · exact h2d x hx

/-- C1: marking a meal cooked fails with the not-found result exactly when
no planned meal with that id belongs to the plan (and then nothing is
written); when the meal, its recipe row and the recipe current version all
resolve, it returns the meal with `cooked = true`, `cooked_date = now`,
`cooked_by = actor`, stores it, bumps the recipe `times_cooked` by one and
sets `last_cooked_date = today`, and the returned deduction list contains
one `{item_name, quantity_deducted}` entry for exactly the non-optional
current-version ingredients with a truthy quantity and a case-insensitive
inventory name match, each deducted through the inventory ledger (only
`auto_deducted` rows with reason `"Used for <title>"` are appended, and no
item key or name changes); quantity-less or unmatched ingredients are
skipped without error. -/
theorem claim_C1_mark_cooked (db : Db) (now today : Int)
    (plan_id meal_id user_id : Nat) :
    (mark_meal_cooked db now today plan_id meal_id user_id = .notFound ↔
      findMeal db plan_id meal_id = none) ∧
    (∀ meal recipe version,
      findMeal db plan_id meal_id = some meal →
      db.recipes.find? (fun r => r.id == meal.recipe_id) = some recipe →
      findVersion recipe recipe.current_version = some version →
      ∃ db' rows,
        mark_meal_cooked db now today plan_id meal_id user_id =
          .ok db' { meal with
            cooked := true
            cooked_date := some now
            cooked_by := some user_id }
            (expectedChanges db.inv.items (servingsRatio meal version)
              version.ingredients) ∧
        findMeal db' plan_id meal_id =
          some { meal with
            cooked := true
            cooked_date := some now
            cooked_by := some user_id } ∧
        db'.recipes.find? (fun r => r.id == meal.recipe_id) =
          some { recipe with
            last_cooked_date := some today
            times_cooked := recipe.times_cooked + 1 } ∧
        db'.inv.history = db.inv.history ++ rows ∧
        (∀ x ∈ rows, x.change_type = "auto_deducted" ∧
          x.reason = some ("Used for " ++ recipe.title)) ∧
        db'.inv.items.map itemKey = db.inv.items.map itemKey) := by
  constructor
  · constructor
    · intro hres
      cases hm : findMeal db plan_id meal_id with
      | none => rfl
      | some meal =>
        exfalso
        cases hrec : db.recipes.find? (fun r => r.id == meal.recipe_id) with
        | none => simp [mark_meal_cooked, hm, hrec] at hres
        | some recipe =>
          cases hver : findVersion recipe recipe.current_version with
          | none => simp [mark_meal_cooked, hm, hrec, hver] at hres
          | some version => simp [mark_meal_cooked, hm, hrec, hver] at hres
    · intro hm
      simp [mark_meal_cooked, hm]
  · intro meal recipe version hm hrec hver
    have hm' : db.meals.find?
        (fun m => m.id == meal_id && m.menu_plan_id == plan_id) = some meal := hm
    have hpm : (meal.id == meal_id && meal.menu_plan_id == plan_id) = true :=
      List.find?_some (p := fun m : PlannedMeal =>
        m.id == meal_id && m.menu_plan_id == plan_id) hm'
    have hpr : (recipe.id == meal.recipe_id) = true :=
      List.find?_some (p := fun r : RecipeRow => r.id == meal.recipe_id) hrec
    have hfold := deductStep_foldl recipe.title user_id (servingsRatio meal version)
      db.inv.items version.ingredients db.inv [] rfl
    obtain ⟨hc, hk, rows, hh, hhp⟩ := hfold
    have heq : mark_meal_cooked db now today plan_id meal_id user_id =
        .ok { plans := db.plans
              meals := replaceFirstBy
                (fun m => m.id == meal_id && m.menu_plan_id == plan_id)
                (fun _ => { meal with
                  cooked := true
                  cooked_date := some now
                  cooked_by := some user_id }) db.meals
              recipes := replaceFirstBy (fun r => r.id == meal.recipe_id)
                (fun _ => { recipe with
                  last_cooked_date := some today
                  times_cooked := recipe.times_cooked + 1 }) db.recipes
              inv := (version.ingredients.foldl
                (deductStep recipe.title user_id (servingsRatio meal version))
                (db.inv, [])).1 }
          { meal with
            cooked := true
            cooked_date := some now
            cooked_by := some user_id }
          (version.ingredients.foldl
            (deductStep recipe.title user_id (servingsRatio meal version))
            (db.inv, [])).2 := by
      simp only [mark_meal_cooked, hm, hrec, hver, deductIngredients]
    refine ⟨_, rows, by rw [heq, hc, List.nil_append], ?_, ?_, hh, hhp, hk⟩
    · exact find?_replaceFirstBy_self _ hm' hpm
    · exact find?_replaceFirstBy_self _ hrec hpr

/-! ## Claim C10: dereference of an absent recipe row -/

/-- C10: when the meal belongs to the plan but no recipe row with its
`recipe_id` exists, `mark_meal_cooked` does not return a not-found result:
it raises the uncaught `AttributeError` of `recipe.current_version` on
`None` (the `crashNoneRecipe` outcome), and in the session state it
carries, the meal has already been set `cooked = true` - the error branch
is unreachable only under the implicit precondition that the referenced
recipe exists. -/
theorem claim_C10_absent_recipe_crash (db : Db) (now today : Int)
    (plan_id meal_id user_id : Nat) (meal : PlannedMeal)
    (hm : findMeal db plan_id meal_id = some meal)
    (hrec : db.recipes.find? (fun r => r.id == meal.recipe_id) = none) :
    ∃ db1,
      mark_meal_cooked db now today plan_id meal_id user_id =
        .crashNoneRecipe db1 ∧
      mark_meal_cooked db now today plan_id meal_id user_id ≠ .notFound ∧
      findMeal db1 plan_id meal_id =
        some { meal with
          cooked := true
          cooked_date := some now
          cooked_by := some user_id } ∧
      db1.recipes = db.recipes ∧
      db1.inv = db.inv ∧
      db1.plans = db.plans := by
  have hm' : db.meals.find?
      (fun m => m.id == meal_id && m.menu_plan_id == plan_id) = some meal := hm
  have hpm : (meal.id == meal_id && meal.menu_plan_id == plan_id) = true :=
    List.find?_some (p := fun m : PlannedMeal =>
      m.id == meal_id && m.menu_plan_id == plan_id) hm'
  have heq : mark_meal_cooked db now today plan_id meal_id user_id =
      .crashNoneRecipe { plans := db.plans
                         meals := replaceFirstBy
                           (fun m => m.id == meal_id && m.menu_plan_id == plan_id)
                           (fun _ => { meal with
                             cooked := true
                             cooked_date := some now
                             cooked_by := some user_id }) db.meals
                         recipes := db.recipes
                         inv := db.inv } := by
    simp only [mark_meal_cooked, hm, hrec]
  refine ⟨_, heq, ?_, ?_, rfl, rfl, rfl⟩
  · rw [heq]
    simp
  · exact find?_replaceFirstBy_self _ hm' hpm

/-- Current version of the cooking fixture: rice is deductible, saffron
has no quantity, truffle has no inventory match, parsley is optional. -/
def versionFixtureC1 : RecipeVersionRow :=
  { version_number := 1
    servings := some 4
    instructions := "cook the rice"
    modified_by := 1
    ingredients :=
      [{ name := "rice", quantity := some 200, unit := some "g",
         category := some "grain", display_order := 0 },
       { name := "saffron", display_order := 1 },
       { name := "truffle", quantity := some 5, unit := some "g",
         display_order := 2 },
       { name := "parsley", quantity := some 10, unit := some "g",
         is_optional := true, display_order := 3 }] }

/-- Recipe of the cooking fixture. -/
def recipeFixtureC1 : RecipeRow :=
  { id := 1, title := "Rice Bowl", current_version := 1,
    versions := [versionFixtureC1] }

/-- Planned meal of the cooking fixture, at the version default servings. -/
def mealFixtureC1 : PlannedMeal :=
  { id := 10, menu_plan_id := 5, recipe_id := 1, meal_date := 0,
    meal_type := "dinner", servings_planned := some 4 }

/-- Whole store of the cooking fixture: 100 g of Rice in stock. -/
def dbFixtureC1 : Db :=
  { plans := [{ id := 5, week_start_date := 0, created_by := 1 }]
    meals := [mealFixtureC1]
    recipes := [recipeFixtureC1]
    inv := { items := [{ id := 0, item_name := "Rice", quantity := 100,
                         unit := some "g", category := some "grain" }]
             history := []
             nextId := 1 } }

/-- Witness for C1: an unknown meal id yields the not-found result; the
rice meal returns cooked state, bumps statistics, and deducts exactly the
matched, quantified, non-optional ingredient (200 g of Rice). -/
theorem claim_C1_witness :
    mark_meal_cooked dbFixtureC1 1000 200 5 99 7 = .notFound ∧
    expectedChanges dbFixtureC1.inv.items
      (servingsRatio mealFixtureC1 versionFixtureC1)
      versionFixtureC1.ingredients =
      [{ item_name := "Rice", quantity_deducted := 200 }] ∧
    (∃ db' rows,
      mark_meal_cooked dbFixtureC1 1000 200 5 10 7 =
        .ok db' { mealFixtureC1 with
          cooked := true
          cooked_date := some 1000
          cooked_by := some 7 }
          (expectedChanges dbFixtureC1.inv.items
            (servingsRatio mealFixtureC1 versionFixtureC1)
            versionFixtureC1.ingredients) ∧
      findMeal db' 5 10 = some { mealFixtureC1 with
        cooked := true
        cooked_date := some 1000
        cooked_by := some 7 } ∧
      db'.recipes.find? (fun r => r.id == mealFixtureC1.recipe_id) =
        some { recipeFixtureC1 with
          last_cooked_date := some 200
          times_cooked := recipeFixtureC1.times_cooked + 1 } ∧
      db'.inv.history = dbFixtureC1.inv.history ++ rows ∧
      (∀ x ∈ rows, x.change_type = "auto_deducted" ∧
        x.reason = some ("Used for " ++ recipeFixtureC1.title)) ∧
      db'.inv.items.map itemKey = dbFixtureC1.inv.items.map itemKey) := by
  refine ⟨(claim_C1_mark_cooked dbFixtureC1 1000 200 5 99 7).1.2 rfl, ?_, ?_⟩
  · have hr : nameMatches "Rice" "rice" = true := by decide
    have hs : nameMatches "Rice" "saffron" = false := by decide
    have ht : nameMatches "Rice" "truffle" = false := by decide
    have hp : nameMatches "Rice" "parsley" = false := by decide
    norm_num [expectedChanges, versionFixtureC1, dbFixtureC1, mealFixtureC1,
      servingsRatio, pyOr, findInvByName, List.filterMap_cons, List.find?_cons,
      hr, hs, ht, hp]
  · exact (claim_C1_mark_cooked dbFixtureC1 1000 200 5 10 7).2 mealFixtureC1
      recipeFixtureC1 versionFixtureC1 rfl rfl rfl

/-- The cooking fixture with the recipe row removed: the planned meal now
dangles. -/
def dbFixtureC10 : Db := { dbFixtureC1 with recipes := [] }

/-- Witness for C10: with the meal present but its recipe row absent, the
operation crashes (it does not return not-found), and the uncommitted
session already holds the meal with `cooked = true`. -/
theorem claim_C10_witness :
    ∃ db1,
      mark_meal_cooked dbFixtureC10 1000 200 5 10 7 = .crashNoneRecipe db1 ∧
      mark_meal_cooked dbFixtureC10 1000 200 5 10 7 ≠ .notFound ∧
      findMeal db1 5 10 = some { mealFixtureC1 with
        cooked := true
        cooked_date := some 1000
        cooked_by := some 7 } ∧
      db1.recipes = dbFixtureC10.recipes ∧
      db1.inv = dbFixtureC10.inv ∧
      db1.plans = dbFixtureC10.plans :=
  claim_C10_absent_recipe_crash dbFixtureC10 1000 200 5 10 7 mealFixtureC1 rfl rfl

/-! ## Claim C4: shopping list generation -/

theorem shopping_foldl_filterMap (inv : List InventoryItem) :
    ∀ (agg : Agg) (acc : List ShoppingListItem),
      agg.foldl (fun acc kv =>
        match reconcileEntry inv kv with
        | some it => acc ++ [it]
        | none => acc) acc =
      acc ++ agg.filterMap (reconcileEntry inv) := by
  intro agg
  induction agg with
  | nil => intro acc; simp
  | cons kv rest ih =>
    intro acc
    cases h : reconcileEntry inv kv with
    | none => simp [List.foldl_cons, List.filterMap_cons, h, ih]
    | some it => simp [List.foldl_cons, List.filterMap_cons, h, ih (acc ++ [it])]

/-- C4: generation fails (with the `"Menu plan not found"` error) exactly
when the plan is missing; on success the item list is the sorted
reconciliation of the aggregate built from the plan's uncooked meals only,
and for each aggregated ingredient no line is emitted when a
case-insensitive inventory match covers the requirement, exactly the
deficit is emitted when the match is short, and the full requirement is
emitted when nothing matches. -/
theorem claim_C4_shopping_list (db : Db) (plan_id : Nat) (grouped : Bool) :
    (∀ e, generate_shopping_list db plan_id grouped = .error e ↔
      (e = "Menu plan not found" ∧
        db.plans.find? (fun p => p.id == plan_id) = none)) ∧
    (∀ resp, generate_shopping_list db plan_id grouped = .ok resp →
      resp.menu_plan_id = plan_id ∧
      resp.items = sortLe (shoppingLe grouped)
        ((aggregateMeals db.recipes
          (db.meals.filter (fun m => m.menu_plan_id == plan_id && !m.cooked))).filterMap
          (reconcileEntry db.inv.items)) ∧
      (∀ name data,
        (name, data) ∈ aggregateMeals db.recipes
          (db.meals.filter (fun m => m.menu_plan_id == plan_id && !m.cooked)) →
        ((∀ item, findInvByName db.inv.items name = some item →
            data.quantity ≤ item.quantity →
            reconcileEntry db.inv.items (name, data) = none) ∧
         (∀ item, findInvByName db.inv.items name = some item →
            item.quantity < data.quantity →
            reconcileEntry db.inv.items (name, data) =
              some (mkShoppingItem name (data.quantity - item.quantity) data) ∧
            mkShoppingItem name (data.quantity - item.quantity) data ∈
              resp.items) ∧
         (findInvByName db.inv.items name = none →
            reconcileEntry db.inv.items (name, data) =
              some (mkShoppingItem name data.quantity data) ∧
            mkShoppingItem name data.quantity data ∈ resp.items)))) := by
  constructor
  · intro e
    cases hfind : db.plans.find? (fun p => p.id == plan_id) with
    | none =>
      constructor
      · intro h
        refine ⟨?_, rfl⟩
        have : Except.error (ε := String) (α := ShoppingListResponse)
            "Menu plan not found" = .error e := by
          rw [← h]
          simp [generate_shopping_list, hfind]
        exact (Except.error.injEq _ _ ▸ this).symm
      · intro ⟨he, _⟩
        rw [he]
        simp [generate_shopping_list, hfind]
    | some p =>
      constructor
      · intro h
        simp [generate_shopping_list, hfind] at h
      · intro h
        exact absurd h.2 (by simp)
  · intro resp hresp
    cases hfind : db.plans.find? (fun p => p.id == plan_id) with
    | none => simp [generate_shopping_list, hfind] at hresp
    | some p =>
      have hresp' : resp = { menu_plan_id := plan_id
                             items := sortLe (shoppingLe grouped)
                               ((aggregateMeals db.recipes
                                 (db.meals.filter (fun m =>
                                   m.menu_plan_id == plan_id && !m.cooked))).filterMap
                                 (reconcileEntry db.inv.items)) } := by
        have h0 := hresp
        simp only [generate_shopping_list, hfind] at h0
        rw [shopping_foldl_filterMap db.inv.items _ []] at h0
        simp only [List.nil_append] at h0
        exact (Except.ok.injEq _ _ ▸ h0).symm
      refine ⟨by rw [hresp'], by rw [hresp'], ?_⟩
      intro name data hmem
      refine ⟨?_, ?_, ?_⟩
      · intro item hfi hle
        simp only [reconcileEntry, hfi]
        rw [if_pos hle]
      · intro item hfi hlt
        have hrec : reconcileEntry db.inv.items (name, data) =
            some (mkShoppingItem name (data.quantity - item.quantity) data) := by
          simp only [reconcileEntry, hfi]
          rw [if_neg (by exact not_le.2 hlt), if_neg (by linarith)]
        refine ⟨hrec, ?_⟩
        rw [hresp']
        show _ ∈ sortLe _ _
        rw [mem_sortLe]
        exact List.mem_filterMap.2 ⟨(name, data), hmem, hrec⟩
      · intro hfi
        have hrec : reconcileEntry db.inv.items (name, data) =
            some (mkShoppingItem name data.quantity data) := by
          simp only [reconcileEntry, hfi]
        refine ⟨hrec, ?_⟩
        rw [hresp']
        show _ ∈ sortLe _ _
        rw [mem_sortLe]
        exact List.mem_filterMap.2 ⟨(name, data), hmem, hrec⟩

/-- Shopping fixture recipe: 200 g rice at 4 servings. -/
def recipeFixtureC4 : RecipeRow :=
  { id := 1, title := "Rice Bowl", current_version := 1,
    versions := [{ version_number := 1
                   servings := some 4
                   instructions := "cook the rice"
                   modified_by := 1
                   ingredients := [{ name := "rice", quantity := some 200,
                                     unit := some "g", category := some "grain",
                                     display_order := 0 }] }] }

/-- Shopping fixture meal: planned for 4 servings, not cooked. -/
def mealFixtureC4 : PlannedMeal :=
  { id := 10, menu_plan_id := 5, recipe_id := 1, meal_date := 0,
    meal_type := "dinner", servings_planned := some 4 }

/-- Shopping fixture store, parameterized by the rice stock. -/
def shoppingDb (stock : ℚ) : Db :=
  { plans := [{ id := 5, week_start_date := 0, created_by := 1 }]
    meals := [mealFixtureC4]
    recipes := [recipeFixtureC4]
    inv := { items := [{ id := 0, item_name := "Rice", quantity := stock,
                         unit := some "g", category := some "grain" }]
             history := []
             nextId := 1 } }

/-- The aggregate the rice meal produces. -/
def entryFixtureC4 : AggEntry :=
  { quantity := 200, unit := some "g", category := "grain",
    recipes := ["Rice Bowl"] }

/-- Witness for C4: a missing plan errors; with 100 g in stock the list
has exactly one 100 g Rice deficit line; with 500 g in stock the list is
empty. -/
theorem claim_C4_witness :
    generate_shopping_list (shoppingDb 100) 99 true =
      .error "Menu plan not found" ∧
    generate_shopping_list (shoppingDb 100) 5 true =
      .ok { menu_plan_id := 5
            items := [mkShoppingItem "rice" 100 entryFixtureC4] } ∧
    generate_shopping_list (shoppingDb 500) 5 true =
      .ok { menu_plan_id := 5, items := [] } := by
  have hkey : trimStr (lowerStr "rice") = "rice" := by decide
  have hq200 : ((200 : ℚ) == 0) = false := by
    rw [beq_eq_false_iff_ne]
    norm_num
  have hnm : nameMatches "Rice" "rice" = true := by decide
  have hsg : strTruthy (some "g") = true := by decide
  have hsn : strTruthy none = false := rfl
  have hgrain : ¬(("grain" : String) = "") := by decide
  have hagg : ∀ stock : ℚ, aggregateMeals (shoppingDb stock).recipes
      ((shoppingDb stock).meals.filter
        (fun m => m.menu_plan_id == 5 && !m.cooked)) = [("rice", entryFixtureC4)] := by
    intro stock
    norm_num [aggregateMeals, List.foldl_cons, List.filter_cons, findVersion,
      servingsRatio, pyOr, aggUpdate, ingUpdate, entryFixtureC4,
      recipeFixtureC4, mealFixtureC4, shoppingDb, hkey, hq200, hsg, hsn, hgrain,
      List.find?_cons]
  refine ⟨?_, ?_, ?_⟩
  · exact ((claim_C4_shopping_list (shoppingDb 100) 99 true).1
      "Menu plan not found").2 ⟨rfl, rfl⟩
  · cases hgen : generate_shopping_list (shoppingDb 100) 5 true with
    | error e =>
      have h := (((claim_C4_shopping_list (shoppingDb 100) 5 true).1 e).1 hgen).2
      norm_num [shoppingDb, List.find?_cons] at h
      exact Option.noConfusion h
    | ok resp =>
      obtain ⟨hmp, hitems, _⟩ := (claim_C4_shopping_list (shoppingDb 100) 5 true).2
        resp hgen
      have hrec : reconcileEntry (shoppingDb 100).inv.items ("rice", entryFixtureC4) =
          some (mkShoppingItem "rice" 100 entryFixtureC4) := by
        simp only [reconcileEntry, findInvByName, shoppingDb, List.find?_cons, hnm]
        rw [if_neg (by norm_num [entryFixtureC4]), if_neg (by norm_num [entryFixtureC4])]
        norm_num [entryFixtureC4]
      rw [hagg 100] at hitems
      simp only [List.filterMap_cons, List.filterMap_nil, hrec] at hitems
      have hsort : sortLe (shoppingLe true) [mkShoppingItem "rice" 100 entryFixtureC4] =
          [mkShoppingItem "rice" 100 entryFixtureC4] := rfl
      rw [hsort] at hitems
      have hre : resp = { menu_plan_id := 5
                          items := [mkShoppingItem "rice" 100 entryFixtureC4] } := by
        cases resp with
        | mk mp items =>
          simp only at hmp hitems
          rw [hmp, hitems]
      rw [hre]
  · cases hgen : generate_shopping_list (shoppingDb 500) 5 true with
    | error e =>
      have h := (((claim_C4_shopping_list (shoppingDb 500) 5 true).1 e).1 hgen).2
      norm_num [shoppingDb, List.find?_cons] at h
      exact Option.noConfusion h
    | ok resp =>
      obtain ⟨hmp, hitems, _⟩ := (claim_C4_shopping_list (shoppingDb 500) 5 true).2
        resp hgen
      have hrec : reconcileEntry (shoppingDb 500).inv.items ("rice", entryFixtureC4) =
          none := by
        simp only [reconcileEntry, findInvByName, shoppingDb, List.find?_cons, hnm]
        rw [if_pos (by norm_num [entryFixtureC4])]
      rw [hagg 500] at hitems
      simp only [List.filterMap_cons, List.filterMap_nil, hrec] at hitems
      have hre : resp = { menu_plan_id := 5, items := [] } := by
        cases resp with
        | mk mp items =>
          simp only at hmp hitems
          rw [hmp, hitems]
          rfl
      rw [hre]

end MealPlanner
